import Mathlib

/-
Verification of the core evaluator of the `ash` interpreter.

The definitions below are a shallow embedding of the Rust sources:
  - `src/ast.rs`        (AST node shapes)
  - `src/eval/mod.rs`   (expression / statement evaluation)
  - `src/eval/bind.rs`  (the binder)
  - `src/eval/scope.rs` (the scope stack)
  - `src/builtins/fns.rs`

Modelling conventions:
  - Rust `i64` is modelled as `Int`; the checked arithmetic operations make
    the 64-bit range explicit.
  - Shared mutable containers (`Arc<Mutex<...>>` for lists, objects,
    function records and scopes) are modelled as addresses into an explicit
    `Store`; cloning a handle copies the address, mutation updates the
    store, and reference identity is address equality.
  - Byte strings (`Vec<u8>`) are modelled as `List Char`, with the UTF-8
    decode of `String::from_utf8` modelled as the total `String.mk`
    (all programs considered in the theorems are ASCII).
  - Recursion is made total with an explicit fuel parameter; exhaustion is
    the distinguished outcome `Res.noFuel` (in Rust: unbounded recursion /
    stack growth).  A Rust `panic!` or panicking primitive is the
    distinguished outcome `Res.panic`.
  - Rust `Result<T>` with mutation-before-error is modelled by the state
    monad `EvalM` which returns the final store together with the outcome.
-/

set_option maxRecDepth 10000
set_option maxHeartbeats 2000000

namespace Ash

/-! ## AST (`src/ast.rs`) -/

abbrev Location := Nat × Nat

inductive UnaryOp where
  | Not
deriving DecidableEq

inductive BinaryOp where
  | Sum | Sub | Mul | Div | Mod
  | And | Or
  | Eq | Ne | Gt | Gte | Lt | Lte
  | RefEq | RefNe
deriving DecidableEq

mutual

inductive RawExpr where
  | Null
  | Bool (b : Bool)
  | Int (n : Int)
  -- `interpolationSlots` is `none` iff the string is not interpolated.
  | Str (s : String) (interpolationSlots : Option (List (Nat × Nat)))
  | Var (name : String)
  | UnaryOp (op : Ash.UnaryOp) (opLoc : Location) (expr : Expr)
  | BinaryOp (op : Ash.BinaryOp) (opLoc : Location) (lhs rhs : Expr)
  | List (items : List ListItem) (collect : Bool)
  | Index (expr : Expr) (location : Expr)
  | RangeIndex (expr : Expr) (start : Option Expr) (stop : Option Expr)
  | Range (start : Expr) (stop : Expr)
  | Object (props : List PropItem)
  -- `Prop` in the Rust source; renamed as `Prop` is a Lean keyword.
  | PropAccess (expr : Expr) (name : String) (typeProp : Bool)
  | Func (args : List Expr) (collectArgs : Bool) (stmts : List Stmt)
  | Call (func : Expr) (args : List ListItem)
  | CatchAsBool (expr : Expr)

-- `Expr = (RawExpr, Location)` in the Rust source.
inductive Expr where
  | mk (raw : RawExpr) (loc : Location)

inductive ListItem where
  | mk (expr : Expr) (isSpread : Bool)

inductive PropItem where
  | Pair (name : Expr) (value : Expr)
  | Single (expr : Expr) (isSpread : Bool) (collect : Bool)

inductive Stmt where
  | Block (block : List Stmt)
  | Expr (expr : Ash.Expr)
  | Declare (lhs rhs : Ash.Expr)
  | Assign (lhs rhs : Ash.Expr)
  | OpAssign (lhs : Ash.Expr) (op : Ash.BinaryOp) (opLoc : Location)
      (rhs : Ash.Expr)
  | If (branches : List Branch) (elseStmts : Option (List Stmt))
  | While (cond : Ash.Expr) (stmts : List Stmt)
  | For (lhs iter : Ash.Expr) (stmts : List Stmt)
  | Break (loc : Location)
  | Continue (loc : Location)
  | Func (name : String) (nameLoc : Location) (args : List Ash.Expr)
      (collectArgs : Bool) (stmts : List Stmt)
  | Return (loc : Location) (expr : Ash.Expr)

inductive Branch where
  | mk (cond : Expr) (stmts : List Stmt)

end

abbrev Block := List Stmt

def Expr.raw : Expr → RawExpr
  | .mk r _ => r

def Expr.loc : Expr → Location
  | .mk _ l => l

inductive Prog where
  | Body (stmts : Block)

/-! ## Values and the store (`src/eval/value.rs` is absent from the sources;
modelled from the spec, sections 3 and 4.1, and from the constructor uses in
`src/eval/mod.rs` and `src/eval/bind.rs`) -/

/-- Modelled from the spec: tagged runtime value (spec section 3).  The
shared mutable containers (`List`, `Object`, `Func`) hold a store address;
`BuiltinFunc` holds the function name together with an identifier into the
builtin-function table. -/
inductive Value where
  | Null
  | Bool (b : Bool)
  | Int (n : Int)
  | Str (s : List Char)
  | List (addr : Nat)
  | Object (addr : Nat)
  | BuiltinFunc (name : String) (fid : Nat)
  | Func (addr : Nat)
deriving DecidableEq

/-- Modelled from the spec: a value together with the optional container it
was drawn from (spec section 3, `SourcedValue`). -/
structure SourcedValue where
  v : Value
  source : Option Value
deriving DecidableEq

/-- `src/eval/scope.rs`: mutability of a binding. -/
inductive Mutability where
  | Const
  | Var
deriving DecidableEq

/-- `src/eval/scope.rs`: the error type of `ScopeStack::assign`. -/
inductive ScopeError where
  | Const
  | Undefined
deriving DecidableEq

/-- One entry of a scope: `(SourcedValue, Location, Mutability)`. -/
structure ScopeEntry where
  v : SourcedValue
  loc : Location
  m : Mutability
deriving DecidableEq

/-- `Scope = HashMap<String, (SourcedValue, Location, Mutability)>`,
modelled as an association list (the map is only read through `get` /
`get_mut` / `insert`, never iterated). -/
abbrev Scope := List (String × ScopeEntry)

/-- A function record (`value::Func`): name, parameter patterns,
collect-args flag, body, captured scope stack (scope addresses). -/
structure FuncRec where
  name : Option String
  args : List Expr
  collectArgs : Bool
  stmts : Block
  closure : List Nat

/-- The heap of shared mutable containers.  `lists`, `objects`, `funcs` and
`scopes` are addressed by list position; `output` records lines printed by
the `print` builtin. -/
structure Store where
  lists : List (List SourcedValue)
  objects : List (List (String × SourcedValue))
  funcs : List FuncRec
  scopes : List Scope
  output : List String

/-- `ScopeStack(Vec<Arc<Mutex<Scope>>>)`: a stack of scope addresses.  The
Rust vector keeps the top at the end and walks with `.iter().rev()`; here
the head of the list is the top, so the top-first walk is head-first. -/
abbrev ScopeStack := List Nat

/-! ## Errors (`src/eval/error.rs` is absent from the sources) -/

/-- Modelled from the spec: the error taxonomy of spec section 7 together
with every variant constructed in `src/eval/mod.rs`, `src/eval/bind.rs` and
`src/builtins/fns.rs`.  The snafu-generated context selectors (the
per-sub-evaluation failed-in-X chain links of spec section 7) are modelled
uniformly as `Chain tag source`.  Variants that wrap a local `Error` expose
it as their source for `root_error`; `StringConstructionFailed` and
`CastFailed` wrap foreign errors and are therefore chain roots. -/
inductive Error where
  | AtLoc (source : Error) (line col : Nat)
  | Chain (tag : String) (source : Error)
  | Runtime (msg : String)
  | Dev (msg : String)
  | Undefined (name : String)
  | AlreadyInBinding (name : String)
  | AlreadyInScope (name : String) (prevLine prevCol : Nat)
  | DupParamName (name : String) (line col : Nat)
  | InvalidBindTarget (descr : String)
  | PropSpreadInParamList
  | ItemSpreadInParamList
  | InvalidUnaryOpType (op : UnaryOp) (value : Value)
  | InvalidBinOpTypes (op : BinaryOp) (lhs rhs : Value)
  | RangeStartOutOfListBounds (start listLen : Nat)
  | RangeStartNotBeforeEnd (start stop : Nat)
  | RangeEndOutOfListBounds (stop listLen : Nat)
  | RangeIndexItemMismatch (rangeLen rhsLen : Nat)
  | RangeOutOfStringBounds (start stop : Nat)
  | RangeOutOfListBounds (start stop : Nat)
  | NegativeIndex (index : Int)
  | CastFailed
  | IncorrectType (descr expType : String) (value : Value)
  | ValueNotIndexable
  | ValueNotRangeIndexable
  | ValueNotIndexAssignable
  | ValueNotRangeIndexAssignable
  | RangeIndexAssignOnNonIndexable (value : Value)
  -- Modelled from the spec (section 4.2): the eval-level error for an
  -- assignment to a const binding.  The `bind.rs` snapshot predates const
  -- bindings (its `assign` call treats the result as a plain boolean); the
  -- `Const` case of `ScopeStack::assign` is surfaced through this kind.
  | AssignToConst (name : String)
  | OpOnUndefinedIndex (name : String)
  | OpOnUndefinedProp (name : String)
  | OpOnRangeIndex
  | OpOnObjectDestructure
  | OpOnListDestructure
  | AssignToTypeProp
  | ObjectDestructureOnNonObject (value : Value)
  | ListDestructureOnNonList (value : Value)
  | ObjectPropShorthandNotVar
  | ObjectCollectIsNotLast
  | ObjectCollectOutsideDestructure
  | ListCollectOutsideDestructure
  | SpreadOnObjectDestructure
  | SpreadInListDestructure (index : Nat)
  | SpreadNonListInList (value : Value)
  | SpreadNonObjectInObject (value : Value)
  | ListCollectTooFew (lhsLen rhsLen : Nat)
  | ListDestructureItemMismatch (lhsLen rhsLen : Nat)
  | PropAccessOnNonObject (value : Value)
  | TypeFunctionOnNull
  | TypeFunctionNotFound (value : Value) (name : String)
  | CannotCallNonFunc (v : Value)
  | ForIterNotIterable
  | BreakOutsideLoop
  | ContinueOutsideLoop
  | ReturnOutsideFunction
  | ArgNumMismatch (need got : Nat)
  | TooFewArgs (minimum got : Nat)
  | BuiltinFuncErr (msg : String)
  | EvalCatchAsBoolFailed (source : Error)
  | EvalBuiltinFuncCallFailed (funcName : Option String)
      (callLoc : Location) (source : Error)
  | EvalFuncCallFailed (funcName : Option String) (callLoc : Location)
      (source : Error)
  | InterpolateStringParseFailed (sourceStr : String)
  | InterpolateStringEvalExprFailed (source : Error)
  | StringConstructionFailed (descr : String)

/-- `root_error` (`src/eval/mod.rs:896`): follow the chain of local error
sources to its deepest element.  Variants that wrap a foreign (non-local)
error, and leaf variants, are roots. -/
def root_error : Error → Error
  | .AtLoc source _ _ => root_error source
  | .Chain _ source => root_error source
  | .EvalCatchAsBoolFailed source => root_error source
  | .EvalBuiltinFuncCallFailed _ _ source => root_error source
  | .EvalFuncCallFailed _ _ source => root_error source
  | .InterpolateStringEvalExprFailed source => root_error source
  | e => e

/-! ## The evaluation monad -/

/-- Outcome of an evaluation step: success, a raised `Error`, a Rust panic,
or fuel exhaustion (unbounded recursion in the original program). -/
inductive Res (α : Type) where
  | ok (a : α)
  | err (e : Error)
  | panic (msg : String)
  | noFuel

/-- State-passing evaluation: the store survives an error (mutations made
before a failure are visible afterwards, as with `Arc<Mutex<...>>`). -/
def EvalM (α : Type) : Type := Store → Res α × Store

def EvalM.run (x : EvalM α) (st : Store) : Res α × Store := x st

def EvalM.pure (a : α) : EvalM α := fun st => (.ok a, st)

def EvalM.bind (x : EvalM α) (f : α → EvalM β) : EvalM β := fun st =>
  match x st with
  | (.ok a, st1) => f a st1
  | (.err e, st1) => (.err e, st1)
  | (.panic m, st1) => (.panic m, st1)
  | (.noFuel, st1) => (.noFuel, st1)

instance : Monad EvalM where
  pure := EvalM.pure
  bind := EvalM.bind

def EvalM.throw (e : Error) : EvalM α := fun st => (.err e, st)

def EvalM.panic (msg : String) : EvalM α := fun st => (.panic msg, st)

def EvalM.noFuel : EvalM α := fun st => (.noFuel, st)

/-- Models snafu `.context(Tag)?`: wrap a raised error in a chain link. -/
def EvalM.context (tag : String) (x : EvalM α) : EvalM α := fun st =>
  match x st with
  | (.err e, st1) => (.err (.Chain tag e), st1)
  | r => r

def EvalM.getStore : EvalM Store := fun st => (.ok st, st)

def EvalM.setStore (st : Store) : EvalM Unit := fun _ => (.ok (), st)

/-- Lift an `Except` (pure Rust `Result`) into the monad. -/
def EvalM.ofExcept : Except Error α → EvalM α
  | .ok a => EvalM.pure a
  | .error e => EvalM.throw e

/-! ## Value constructors (`src/eval/value.rs`, absent from the sources).
Modelled from the spec (section 3) and the constructor uses in
`src/eval/mod.rs`: the `new_*` constructors build a `SourcedValue` with no
source; `new_list`, `new_object` and `new_func` allocate a fresh shared
container. -/

def new_null : SourcedValue := ⟨.Null, none⟩

def new_bool (b : Bool) : SourcedValue := ⟨.Bool b, none⟩

def new_int (n : Int) : SourcedValue := ⟨.Int n, none⟩

def new_str (s : List Char) : SourcedValue := ⟨.Str s, none⟩

def new_str_from_string (s : String) : SourcedValue := ⟨.Str s.data, none⟩

def new_val_ref_with_no_source (v : Value) : SourcedValue := ⟨v, none⟩

def new_val_ref_with_source (v source : Value) : SourcedValue :=
  ⟨v, some source⟩

def new_list (vals : List SourcedValue) : EvalM SourcedValue := fun st =>
  (.ok ⟨.List st.lists.length, none⟩,
   {st with lists := st.lists ++ [vals]})

def new_object (props : List (String × SourcedValue)) :
    EvalM SourcedValue := fun st =>
  (.ok ⟨.Object st.objects.length, none⟩,
   {st with objects := st.objects ++ [props]})

def new_func (name : Option String) (args : List Expr) (collectArgs : Bool)
    (stmts : Block) (closure : List Nat) : EvalM SourcedValue := fun st =>
  (.ok ⟨.Func st.funcs.length, none⟩,
   {st with funcs := st.funcs ++
     [{name := name, args := args, collectArgs := collectArgs,
       stmts := stmts, closure := closure}]})

/-- `value::ref_eq`: reference identity of two shared handles
(`Arc::ptr_eq`), i.e. address equality. -/
def value_ref_eq (a b : Nat) : Bool := a = b

/-! ## Store and scope primitives -/

def Store.getList (st : Store) (a : Nat) : List SourcedValue :=
  st.lists.getD a []

def Store.setList (st : Store) (a : Nat) (xs : List SourcedValue) : Store :=
  {st with lists := st.lists.set a xs}

def Store.getObject (st : Store) (a : Nat) :
    List (String × SourcedValue) :=
  st.objects.getD a []

def Store.setObject (st : Store) (a : Nat)
    (xs : List (String × SourcedValue)) : Store :=
  {st with objects := st.objects.set a xs}

def Store.getScope (st : Store) (a : Nat) : Scope :=
  st.scopes.getD a []

def Store.setScope (st : Store) (a : Nat) (s : Scope) : Store :=
  {st with scopes := st.scopes.set a s}

/-- `HashMap::get` over the association-list model of a scope. -/
def scope_find (s : Scope) (name : String) : Option ScopeEntry :=
  match s with
  | [] => none
  | (k, e) :: rest => if k = name then some e else scope_find rest name

/-- `HashMap::insert` over the association-list model of a scope. -/
def scope_insert (s : Scope) (name : String) (e : ScopeEntry) : Scope :=
  match s with
  | [] => [(name, e)]
  | (k, e0) :: rest =>
      if k = name then (name, e) :: rest
      else (k, e0) :: scope_insert rest name e

/-- Lexicographic order on character lists (the byte-wise `Ord` of a
Rust `String`, restricted to the ASCII range used throughout). -/
def chars_lt : List Char → List Char → Bool
  | [], [] => false
  | [], _ :: _ => true
  | _ :: _, [] => false
  | c1 :: r1, c2 :: r2 =>
      if c1.toNat < c2.toNat then true
      else if c2.toNat < c1.toNat then false
      else chars_lt r1 r2

def string_lt (a b : String) : Bool := chars_lt a.data b.data

/-- A `BTreeMap<String, _>` is modelled as an association list ordered by
key; `insert` replaces an existing key in place and otherwise inserts at
the ordered position. -/
def btree_insert (m : List (String × SourcedValue)) (k : String)
    (v : SourcedValue) : List (String × SourcedValue) :=
  match m with
  | [] => [(k, v)]
  | (k0, v0) :: rest =>
      if k = k0 then (k, v) :: rest
      else if string_lt k k0 then (k, v) :: (k0, v0) :: rest
      else (k0, v0) :: btree_insert rest k v

/-- `BTreeMap::get`. -/
def btree_get (m : List (String × SourcedValue)) (k : String) :
    Option SourcedValue :=
  match m with
  | [] => none
  | (k0, v0) :: rest => if k0 = k then some v0 else btree_get rest k

/-- `BTreeMap::keys`, in map order. -/
def btree_keys (m : List (String × SourcedValue)) : List String :=
  m.map (fun p => p.1)

/-! ## The scope stack (`src/eval/scope.rs`) -/

/-- Result of `ScopeStack::declare`: `Err` carries the location of the
previous definition; `emptyStack` is the Rust `expect` panic on an empty
stack. -/
inductive DeclareResult where
  | ok (st : Store)
  | alreadyDefined (prevLoc : Location)
  | emptyStack

/-- `ScopeStack::declare` (`src/eval/scope.rs:44`): insert into the current
(topmost) scope, failing with the previous location if the name is already
defined there. -/
def ScopeStack.declare (stack : ScopeStack) (st : Store) (name : String)
    (loc : Location) (v : SourcedValue) (m : Mutability) : DeclareResult :=
  match stack with
  | [] => .emptyStack
  | addr :: _ =>
      let cur := st.getScope addr
      match scope_find cur name with
      | some e => .alreadyDefined e.loc
      | none =>
          .ok (st.setScope addr
            (scope_insert cur name {v := v, loc := loc, m := m}))

/-- `ScopeStack::get` (`src/eval/scope.rs:68`): topmost-first search. -/
def ScopeStack.get (stack : ScopeStack) (st : Store) (name : String) :
    Option SourcedValue :=
  match stack with
  | [] => none
  | addr :: rest =>
      match scope_find (st.getScope addr) name with
      | some e => some e.v
      | none => ScopeStack.get rest st name

/-- `ScopeStack::assign` (`src/eval/scope.rs:82`): topmost-first search;
replaces the value in place (keeping the location and the mutability of
the binding); fails `Undefined` when the name is absent from every scope
and `Const` when the innermost binding is a constant. -/
def ScopeStack.assign (stack : ScopeStack) (st : Store) (name : String)
    (v : SourcedValue) : Except ScopeError Store :=
  match stack with
  | [] => .error .Undefined
  | addr :: rest =>
      let sc := st.getScope addr
      match scope_find sc name with
      | some e =>
          if e.m = Mutability.Const then .error .Const
          else .ok (st.setScope addr
            (scope_insert sc name {e with v := v}))
      | none => ScopeStack.assign rest st name v

/-- `ScopeStack::new_from_push` (`src/eval/scope.rs:34`): share all current
frames and push a freshly allocated scope on top. -/
def ScopeStack.new_from_push (stack : ScopeStack) (st : Store)
    (scope : Scope) : ScopeStack × Store :=
  (st.scopes.length :: stack, {st with scopes := st.scopes ++ [scope]})

/-! ## Checked 64-bit arithmetic -/

def i64Min : Int := -(2 ^ 63)

def i64Max : Int := 2 ^ 63 - 1

def inI64 (n : Int) : Prop := i64Min ≤ n ∧ n ≤ i64Max

instance (n : Int) : Decidable (inI64 n) := by
  unfold inI64; infer_instance

/-- `i64::checked_add`. -/
def checked_add (a b : Int) : Option Int :=
  let v := a + b
  if i64Min ≤ v ∧ v ≤ i64Max then some v else none

/-- `i64::checked_sub`. -/
def checked_sub (a b : Int) : Option Int :=
  let v := a - b
  if i64Min ≤ v ∧ v ≤ i64Max then some v else none

/-- `i64::checked_mul`. -/
def checked_mul (a b : Int) : Option Int :=
  let v := a * b
  if i64Min ≤ v ∧ v ≤ i64Max then some v else none

/-- `i64::checked_div`: `none` on a zero divisor and on `i64::MIN / -1`;
Rust integer division truncates toward zero (`Int.tdiv`). -/
def checked_div (a b : Int) : Option Int :=
  if b = 0 then none
  else if a = i64Min ∧ b = -1 then none
  else some (a.tdiv b)

/-! ## Operators (`src/eval/mod.rs`) -/

/-- `error::render_type` (`src/eval/error.rs`, absent from the sources).
Modelled from the spec, section 4.1: the type-name function
`null|bool|int|string|list|object|function`. -/
def render_type : Value → String
  | .Null => "null"
  | .Bool _ => "bool"
  | .Int _ => "int"
  | .Str _ => "string"
  | .List _ => "list"
  | .Object _ => "object"
  | .BuiltinFunc _ _ => "function"
  | .Func _ => "function"

/-- `error::bin_op_symbol` (`src/eval/error.rs`, absent from the sources).
Modelled from the spec: the operator surface syntax of sections 4.4. -/
def bin_op_symbol : BinaryOp → String
  | .Sum => "+"
  | .Sub => "-"
  | .Mul => "*"
  | .Div => "/"
  | .Mod => "%"
  | .And => "&&"
  | .Or => "||"
  | .Eq => "=="
  | .Ne => "!="
  | .Gt => ">"
  | .Gte => ">="
  | .Lt => "<"
  | .Lte => "<="
  | .RefEq => "==="
  | .RefNe => "!=="

/-- `ref_eq` (`src/eval/mod.rs:1245`): reference identity, defined only for
list, object and function pairs. -/
def ref_eq : Value → Value → Option Bool
  | .List a, .List b => some (value_ref_eq a b)
  | .Object a, .Object b => some (value_ref_eq a b)
  | .Func a, .Func b => some (value_ref_eq a b)
  | _, _ => none

/-- The result type of `eq`: `Ok b`, or a path to the differing values
together with the two differing type names. -/
abbrev EqResult := Except (String × String × String) Bool

mutual

/-- `eq` (`src/eval/mod.rs:1156`): deep structural equality with
path-tracking; handle-identical containers short-circuit to `true`.
`fuel` bounds the recursion depth (Rust grows the call stack). -/
def eq_value (fuel : Nat) (st : Store) (lhs rhs : Value) : Res EqResult :=
  match fuel with
  | 0 => .noFuel
  | fuel + 1 =>
      match lhs, rhs with
      | .Null, .Null => .ok (.ok true)
      | .Bool a, .Bool b => .ok (.ok (a = b))
      | .Int a, .Int b => .ok (.ok (a = b))
      | .Str a, .Str b => .ok (.ok (a = b))
      | .List xs, .List ys =>
          if value_ref_eq xs ys then .ok (.ok true)
          else
            let xv := st.getList xs
            let yv := st.getList ys
            if xv.length ≠ yv.length then .ok (.ok false)
            else eq_list_items fuel st xv yv 0
      | .Object xs, .Object ys =>
          if value_ref_eq xs ys then .ok (.ok true)
          else
            let xv := st.getObject xs
            let yv := st.getObject ys
            if xv.length ≠ yv.length then .ok (.ok false)
            else eq_object_items fuel st xv yv
      | l, r => .ok (.error ("", render_type l, render_type r))

/-- The element loop of `eq` on lists; an error from element `i` has its
path prefixed with the index (Rust `format!("[{i}]{path}")`). -/
def eq_list_items (fuel : Nat) (st : Store) (xs ys : List SourcedValue)
    (i : Nat) : Res EqResult :=
  match fuel with
  | 0 => .noFuel
  | fuel + 1 =>
      match xs, ys with
      | x :: xrest, y :: yrest =>
          match eq_value fuel st x.v y.v with
          | .ok (.ok true) => eq_list_items fuel st xrest yrest (i + 1)
          | .ok (.ok false) => .ok (.ok false)
          | .ok (.error (path, a, b)) =>
              .ok (.error ("[" ++ toString i ++ "]" ++ path, a, b))
          | r => r
      | _, _ => .ok (.ok true)

/-- The entry loop of `eq` on objects; a missing key yields `false`; an
error has its path prefixed with the key (the Rust message quotes the key,
the quote characters are elided here). -/
def eq_object_items (fuel : Nat) (st : Store)
    (xs ys : List (String × SourcedValue)) : Res EqResult :=
  match fuel with
  | 0 => .noFuel
  | fuel + 1 =>
      match xs with
      | [] => .ok (.ok true)
      | (k, x) :: xrest =>
          match btree_get ys k with
          | none => .ok (.ok false)
          | some y =>
              match eq_value fuel st x.v y.v with
              | .ok (.ok true) => eq_object_items fuel st xrest ys
              | .ok (.ok false) => .ok (.ok false)
              | .ok (.error (path, a, b)) =>
                  .ok (.error ("." ++ k ++ path, a, b))
              | r => r

end

/-- `apply_unary_operation` (`src/eval/mod.rs:929`). -/
def apply_unary_operation (op : UnaryOp) (opLoc : Location)
    (value : Value) : Except Error Value :=
  let (line, col) := opLoc
  match op with
  | .Not =>
      match value with
      | .Bool b => .ok (.Bool (!b))
      | _ => .error (.AtLoc (.InvalidUnaryOpType op value) line col)

/-- `apply_binary_operation` (`src/eval/mod.rs:963`).  The arithmetic on
`%` is the unchecked Rust `%`: a zero divisor panics (and, with overflow
checks compiled out, `i64::MIN % -1` evaluates to `0`, which is
`Int.tmod`).  The Rust error messages quote their fragments; the quote
characters are elided here. -/
def apply_binary_operation (fuel : Nat) (op : BinaryOp) (opLoc : Location)
    (lhs rhs : Value) : EvalM Value :=
  let (line, col) := opLoc
  let new_invalid_op_types : EvalM Value :=
    EvalM.throw (.AtLoc (.InvalidBinOpTypes op lhs rhs) line col)
  let new_int_overflow (a b : Int) : EvalM Value :=
    EvalM.throw (.AtLoc
      (.Runtime (toString a ++ " " ++ bin_op_symbol op ++ " " ++
        toString b ++ " caused an integer overflow")) line col)
  match op with
  | .Eq | .Ne => do
      let st ← EvalM.getStore
      match eq_value fuel st lhs rhs with
      | .ok (.ok v) =>
          match op with
          | .Eq => pure (.Bool v)
          | _ => pure (.Bool (!v))
      | .ok (.error (path, lhsType, rhsType)) =>
          let pathMsg := if path = "" then "" else " (at " ++ path ++ ")"
          EvalM.throw (.AtLoc
            (.Runtime ("cannot apply " ++ bin_op_symbol op ++ " to " ++
              lhsType ++ " and " ++ rhsType ++ pathMsg)) line col)
      | .err e => EvalM.throw e
      | .panic m => EvalM.panic m
      | .noFuel => EvalM.noFuel
  | .RefEq | .RefNe =>
      match ref_eq lhs rhs with
      | some v =>
          match op with
          | .RefEq => pure (.Bool v)
          | _ => pure (.Bool (!v))
      | none => new_invalid_op_types
  | .Sum =>
      match lhs, rhs with
      | .Int a, .Int b =>
          match checked_add a b with
          | some v => pure (.Int v)
          | none => new_int_overflow a b
      | .Str a, .Str b => pure (.Str (a ++ b))
      | .List a, .List b => do
          let st ← EvalM.getStore
          let av := st.getList a
          let bv := st.getList b
          let v ← new_list (av ++ bv)
          pure v.v
      | _, _ => new_invalid_op_types
  | .Sub | .Mul | .Div | .Mod =>
      match lhs, rhs with
      | .Int a, .Int b =>
          match op with
          | .Sub =>
              match checked_sub a b with
              | some v => pure (.Int v)
              | none => new_int_overflow a b
          | .Mul =>
              match checked_mul a b with
              | some v => pure (.Int v)
              | none => new_int_overflow a b
          | .Div =>
              match checked_div a b with
              | some v => pure (.Int v)
              | none => new_int_overflow a b
          | .Mod =>
              if b = 0 then
                EvalM.panic
                  "attempt to calculate the remainder with a divisor of zero"
              else pure (.Int (a.tmod b))
          | _ => EvalM.panic "unexpected operation"
      | _, _ => new_invalid_op_types
  | .And | .Or =>
      match lhs, rhs with
      | .Bool a, .Bool b =>
          match op with
          | .And => pure (.Bool (a && b))
          | .Or => pure (.Bool (a || b))
          | _ => EvalM.panic "unexpected operation"
      | _, _ => new_invalid_op_types
  | .Gt | .Gte | .Lt | .Lte =>
      match lhs, rhs with
      | .Int a, .Int b =>
          match op with
          | .Gt => pure (.Bool (decide (a > b)))
          | .Gte => pure (.Bool (decide (a ≥ b)))
          | .Lt => pure (.Bool (decide (a < b)))
          | .Lte => pure (.Bool (decide (a ≤ b)))
          | _ => EvalM.panic "unexpected operation"
      | _, _ => new_invalid_op_types

/-! ## Iteration pairs and range reads (`src/eval/mod.rs`) -/

/-- `value_to_pairs` (`src/eval/mod.rs:410`): the "index, value" pairs of
an iterable value.  The `usize → i64` cast of the index cannot fail for a
representable container and is modelled as total. -/
def value_to_pairs (st : Store) (v : Value) :
    Except Error (List (SourcedValue × SourcedValue)) :=
  match v with
  | .Str s =>
      .ok ((s.enum).map (fun p => (new_int p.1, new_str [p.2])))
  | .List addr =>
      .ok (((st.getList addr).enum).map (fun p => (new_int p.1, p.2)))
  | .Object addr =>
      .ok ((st.getObject addr).map
        (fun p => (new_str_from_string p.1, p.2)))
  | _ => .error .ForIterNotIterable

/-- `get_str_range_index` (`src/eval/mod.rs:1376`); Rust slice `get(a..b)`
is `None` unless `a ≤ b ≤ len`. -/
def get_str_range_index (s : List Char) (maybeStart maybeEnd : Option Nat) :
    Except Error SourcedValue :=
  let start := maybeStart.getD 0
  let stop := maybeEnd.getD s.length
  if start ≤ stop ∧ stop ≤ s.length then
    .ok (new_str ((s.drop start).take (stop - start)))
  else
    .error (.RangeOutOfStringBounds start stop)

/-- `get_list_range_index` (`src/eval/mod.rs:1393`); allocates a fresh
list for the extracted range. -/
def get_list_range_index (listAddr : Nat)
    (maybeStart maybeEnd : Option Nat) : EvalM SourcedValue := do
  let st ← EvalM.getStore
  let items := st.getList listAddr
  let start := maybeStart.getD 0
  let stop := maybeEnd.getD items.length
  if start ≤ stop ∧ stop ≤ items.length then
    new_list ((items.drop start).take (stop - start))
  else
    EvalM.throw (.RangeOutOfListBounds start stop)

/-! ## Parameter validation (`src/eval/mod.rs:317`) -/

def name_locs_get (m : List (String × Location)) (k : String) :
    Option Location :=
  match m with
  | [] => none
  | (k0, l) :: rest => if k0 = k then some l else name_locs_get rest k

def name_locs_insert (m : List (String × Location)) (k : String)
    (l : Location) : List (String × Location) :=
  match m with
  | [] => [(k, l)]
  | (k0, l0) :: rest =>
      if k0 = k then (k, l) :: rest
      else (k0, l0) :: name_locs_insert rest k l

/-- The queue-processing loop of `validate_args`: pop the front of the
queue, record `Var` names (rejecting duplicates with `DupParamName`),
push the sub-patterns of object and list shapes onto the back, and reject
every non-pattern shape.  On encountering the name `_` the Rust loop
executes `break`, abandoning the rest of the queue.  `fuel` bounds the
loop (the queue both shrinks and grows). -/
def validate_args_loop (fuel : Nat) (queue : List Expr)
    (nameLocs : List (String × Location)) : Res Unit :=
  match fuel with
  | 0 => .noFuel
  | fuel + 1 =>
      match queue with
      | [] => .ok ()
      | .mk rawArg loc :: queueRest =>
          let (line, col) := loc
          let locErr (source : Error) : Res Unit :=
            .err (.AtLoc source line col)
          let invalidBind (s : String) : Res Unit :=
            locErr (.InvalidBindTarget s)
          match rawArg with
          | .Var name =>
              if name = "_" then .ok ()
              else
                match name_locs_get nameLocs name with
                | some (prevLine, prevCol) =>
                    locErr (.DupParamName name prevLine prevCol)
                | none =>
                    validate_args_loop fuel queueRest
                      (name_locs_insert nameLocs name loc)
          | .Object props =>
              match validate_args_queue_props props with
              | .ok newItems =>
                  validate_args_loop fuel (queueRest ++ newItems) nameLocs
              | .error e => locErr e
          | .List items _ =>
              match validate_args_queue_items items with
              | .ok newItems =>
                  validate_args_loop fuel (queueRest ++ newItems) nameLocs
              | .error e => locErr e
          | .Index _ _ => invalidBind "an index operation"
          | .RangeIndex _ _ _ => invalidBind "a range index operation"
          | .PropAccess _ _ _ =>
              invalidBind "a property access operation"
          | .Null => invalidBind "null"
          | .Bool _ => invalidBind "a boolean literal"
          | .Int _ => invalidBind "an integer literal"
          | .Str _ _ => invalidBind "a string literal"
          | .UnaryOp _ _ _ => invalidBind "a unary operation"
          | .BinaryOp _ _ _ _ => invalidBind "a binary operation"
          | .Range _ _ => invalidBind "a range operation"
          | .Func _ _ _ => invalidBind "an anonymous function"
          | .Call _ _ => invalidBind "a function call"
          | .CatchAsBool _ => invalidBind "a boolean catch"
where
  /-- The `RawExpr::Object` arm: queue every pair value and every
  non-spread single; a spread fails `PropSpreadInParamList`. -/
  validate_args_queue_props :
      List PropItem → Except Error (List Expr)
    | [] => .ok []
    | .Pair _ value :: rest => do
        let tail ← validate_args_queue_props rest
        .ok (value :: tail)
    | .Single expr isSpread _ :: rest =>
        if isSpread then .error .PropSpreadInParamList
        else do
          let tail ← validate_args_queue_props rest
          .ok (expr :: tail)
  /-- The `RawExpr::List` arm: queue every non-spread item; a spread
  fails `ItemSpreadInParamList`. -/
  validate_args_queue_items :
      List ListItem → Except Error (List Expr)
    | [] => .ok []
    | .mk expr isSpread :: rest =>
        if isSpread then .error .ItemSpreadInParamList
        else do
          let tail ← validate_args_queue_items rest
          .ok (expr :: tail)

/-- `validate_args` (`src/eval/mod.rs:317`). -/
def validate_args (fuel : Nat) (args : List Expr) : Res Unit :=
  validate_args_loop fuel args []

/-- `BindType` (`src/eval/bind.rs:54`). -/
inductive BindType where
  | Declaration
  | Assignment
deriving DecidableEq

/-- `Escape` (`src/eval/mod.rs:157`): the non-local outcome of a
statement. -/
inductive Escape where
  | None
  | Break (loc : Location)
  | Continue (loc : Location)
  | Return (value : SourcedValue) (loc : Location)
deriving DecidableEq

/-! ## Evaluation context and builtins -/

/-- The per-type method tables (`context.builtins.type_functions`); their
contents are installed by the external registry (spec section 6). -/
structure TypeFunctions where
  bools : List (String × SourcedValue)
  ints : List (String × SourcedValue)
  strs : List (String × SourcedValue)
  lists : List (String × SourcedValue)
  objects : List (String × SourcedValue)
  funcs : List (String × SourcedValue)

structure Builtins where
  typeFunctions : TypeFunctions

/-- `EvaluationContext` (`src/eval/mod.rs:58`); `cur_script_dir` is dead
code and is omitted. -/
structure EvaluationContext where
  builtins : Builtins

/-- A context with empty method tables, used by the concrete programs in
the theorems (none of them calls a type function). -/
def emptyContext : EvaluationContext :=
  ⟨⟨⟨[], [], [], [], [], []⟩⟩⟩

/-- `assert_args` (`src/builtins/fns.rs:98`); the Rust message quotes the
function name, the quote characters are elided. -/
def assert_args (fnName : String) (expArgs : Nat)
    (args : List SourcedValue) : Except Error Unit :=
  let argsLen := args.length
  if argsLen ≠ expArgs then
    let plural := if expArgs ≠ 1 then "s" else ""
    .error (.BuiltinFuncErr (fnName ++ " only takes " ++ toString expArgs ++
      " argument" ++ plural ++ " (got " ++ toString argsLen ++ ")"))
  else .ok ()

/-- `assert_no_this` (`src/builtins/fns.rs:118`). -/
def assert_no_this (this : Option SourcedValue) : Except Error Unit :=
  match this with
  | none => .ok ()
  | some _ => .error (.Dev "this should not exist")

/-- The newline character, written without an escape sequence. -/
def nlChar : Char := Char.ofNat 10

def nlStr : String := String.mk [nlChar]

mutual

/-- `render` (`src/builtins/fns.rs:34`); `fuel` bounds the recursion into
containers.  The string arm models `String::from_utf8` as total. -/
def render (fuel : Nat) (st : Store) (v : SourcedValue) : Res String :=
  match fuel with
  | 0 => .noFuel
  | fuel + 1 =>
      match v.v with
      | .Null => .ok "<null>"
      | .Bool b => .ok (toString b)
      | .Int n => .ok (toString n)
      | .Str raw => .ok (String.mk raw)
      | .List items =>
          match render_items fuel st (st.getList items) with
          | .ok s => .ok ("[" ++ nlStr ++ s ++ "]")
          | .err e => .err e
          | .panic m => .panic m
          | .noFuel => .noFuel
      | .Object props =>
          match render_props fuel st (st.getObject props) with
          | .ok s => .ok ("\x7b" ++ nlStr ++ s ++ "\x7d")
          | .err e => .err e
          | .panic m => .panic m
          | .noFuel => .noFuel
      | .BuiltinFunc name _ =>
          .ok ("<built-in function " ++ name ++ ">")
      | .Func f =>
          .ok ("<function " ++ toString ((st.funcs.getD f
            {name := none, args := [], collectArgs := false, stmts := [],
             closure := []}).name.getD "") ++ ">")

def render_items (fuel : Nat) (st : Store) (items : List SourcedValue) :
    Res String :=
  match fuel with
  | 0 => .noFuel
  | fuel + 1 =>
      match items with
      | [] => .ok ""
      | item :: rest =>
          match render fuel st item with
          | .ok s =>
              let indented := s.replace nlStr (nlStr ++ "    ")
              match render_items fuel st rest with
              | .ok tail =>
                  .ok ("    " ++ indented ++ "," ++ nlStr ++ tail)
              | r => r
          | r => r

def render_props (fuel : Nat) (st : Store)
    (props : List (String × SourcedValue)) : Res String :=
  match fuel with
  | 0 => .noFuel
  | fuel + 1 =>
      match props with
      | [] => .ok ""
      | (name, prop) :: rest =>
          match render fuel st prop with
          | .ok s =>
              let indented := s.replace nlStr (nlStr ++ "    ")
              match render_props fuel st rest with
              | .ok tail =>
                  .ok ("    " ++ name ++ ": " ++ indented ++ "," ++
                    nlStr ++ tail)
              | r => r
          | r => r

end

/-- `print` (`src/builtins/fns.rs:18`): the `println!` is modelled by
appending the rendered line to `Store.output`. -/
def print_builtin (fuel : Nat) (this : Option SourcedValue)
    (args : List SourcedValue) : EvalM SourcedValue := do
  (EvalM.ofExcept (assert_args "print" 1 args)).context "AssertArgsFailed"
  (EvalM.ofExcept (assert_no_this this)).context "AssertNoThisFailed"
  let st ← EvalM.getStore
  match render fuel st (args.getD 0 new_null) with
  | .ok s => do
      EvalM.setStore {st with output := st.output ++ [s]}
      pure new_null
  | .err e => EvalM.throw e
  | .panic m => EvalM.panic m
  | .noFuel => EvalM.noFuel

/-- Modelled from the spec: the builtin-function registry is an external
collaborator (spec section 6); the only builtin whose code is in the
sources is `print` (`src/builtins/fns.rs`), given the identifier `0`. -/
def apply_builtin (fuel : Nat) (fid : Nat) (this : Option SourcedValue)
    (args : List SourcedValue) : EvalM SourcedValue :=
  match fid with
  | 0 => print_builtin fuel this args
  | _ => EvalM.panic "unknown builtin function"

/-! ## Non-recursive evaluator helpers -/

/-- The integer range `[a, b)` (an empty list when `a ≥ b`). -/
def int_range (a b : Int) : List Int :=
  (List.range (b - a).toNat).map (fun i => a + i)

/-- The element-writing loop of `bind_range_index`: write `rhs` into the
slots starting at `start`. -/
def set_slots (items : List SourcedValue) (start : Nat)
    (rhs : List SourcedValue) : List SourcedValue :=
  match rhs with
  | [] => items
  | v :: rest => set_slots (items.set start v) (start + 1) rest

/-- The `HashSet<String>` of names seen in one binding. -/
abbrev NameSet := List String

def NameSet.contains (s : NameSet) (name : String) : Bool :=
  match s with
  | [] => false
  | n :: rest => if n = name then true else NameSet.contains rest name

def NameSet.insert (s : NameSet) (name : String) : NameSet := name :: s

/-- `binary_operation_assign` (`src/eval/bind.rs:298`): the new value of
the assigned slot (`scope::set` itself is performed by the caller, which
owns the slot). -/
def binary_operation_assign (fuel : Nat) (lhs rhs : SourcedValue)
    (op : Option (BinaryOp × Location)) : EvalM SourcedValue :=
  match op with
  | some (o, opLoc) => do
      let v ← (apply_binary_operation fuel o opLoc lhs.v rhs.v).context "ApplyBinOpFailed"
      pure (new_val_ref_with_no_source v)
  | none => pure rhs

/-- `bind_next_name` (`src/eval/bind.rs:336`).  `_` is a sink: it returns
without binding and without touching the name set.  The `bind.rs` snapshot
predates the mutability parameter of `ScopeStack::declare` (declarations
bind as `Var`) and the `Result`-valued `ScopeStack::assign`; the `Const`
failure of `assign` is surfaced as `AssignToConst` (spec section 4.2). -/
def bind_next_name (fuel : Nat) (scopes : ScopeStack) (names : NameSet)
    (name : String) (nameLoc : Location) (rhs : SourcedValue)
    (op : Option (BinaryOp × Location)) (bindType : BindType) :
    EvalM NameSet :=
  if name = "_" then pure names
  else
    let (line, col) := nameLoc
    let locErr {α : Type} (source : Error) : EvalM α :=
      EvalM.throw (.AtLoc source line col)
    if NameSet.contains names name then
      locErr (.AlreadyInBinding name)
    else
      let names := NameSet.insert names name
      match bindType with
      | .Declaration =>
          if op.isSome then
            locErr (.Dev "operation-assignment on declaration")
          else fun st =>
            match ScopeStack.declare scopes st name nameLoc rhs
                Mutability.Var with
            | .ok st1 => (.ok names, st1)
            | .alreadyDefined (prevLine, prevCol) =>
                (.err (.AtLoc (.AlreadyInScope name prevLine prevCol)
                  line col), st)
            | .emptyStack =>
                (.panic "ScopeStack stack should not be empty", st)
      | .Assignment => do
          let rhsVal ←
            match op with
            | some (o, opLoc) => do
                let lhsVal ← fun st =>
                  match ScopeStack.get scopes st name with
                  | some v => (.ok v, st)
                  | none => (.err (.AtLoc (.Undefined name) line col), st)
                let rawV ← (apply_binary_operation fuel o opLoc
                  lhsVal.v rhs.v).context "ApplyBinOpFailed"
                pure (new_val_ref_with_no_source rawV)
            | none => pure rhs
          fun st =>
            match ScopeStack.assign scopes st name rhsVal with
            | .ok st1 => (.ok names, st1)
            | .error .Undefined =>
                (.err (.AtLoc (.Undefined name) line col), st)
            | .error .Const =>
                (.err (.AtLoc (.AssignToConst name) line col), st)

/-- `bind_name` (`src/eval/bind.rs:322`). -/
def bind_name (fuel : Nat) (scopes : ScopeStack) (name : String)
    (nameLoc : Location) (rhs : SourcedValue) (bindType : BindType) :
    EvalM Unit := do
  let _ ← bind_next_name fuel scopes [] name nameLoc rhs none bindType
  pure ()

/-- Allocate and push a fresh scope (`ScopeStack::new_from_push`). -/
def push_scope (scopes : ScopeStack) : EvalM ScopeStack := fun st =>
  let (s, st1) := ScopeStack.new_from_push scopes st []
  (.ok s, st1)

/-- Lift a pure `Res` into the monad. -/
def EvalM.ofRes (r : Res α) : EvalM α := fun st => (r, st)

/-- Modelled from the spec: string interpolation re-parses the slot bodies
with the external expression parser (spec sections 4.4 and 6), which is
outside the embedded core; no program considered in the theorems contains
an interpolated literal. -/
def interpolate_string : EvalM String :=
  EvalM.panic "string interpolation needs the external expression parser"

/-- The binding-construction loop of `eval_call` (`src/eval/mod.rs:1512`):
parameter `i` binds `arg_vals[i]`, except that with `collect_args` the
last parameter binds a freshly allocated list of the remaining
arguments. -/
def make_call_bindings (collectArgs : Bool) (numParams : Nat)
    (argVals : List SourcedValue) (i : Nat) (argNames : List Expr) :
    EvalM (List (Expr × SourcedValue)) :=
  match argNames with
  | [] => pure []
  | n :: rest => do
      let argVal ←
        if collectArgs ∧ i = numParams - 1 then
          new_list (argVals.drop (numParams - 1))
        else
          pure (argVals.getD i new_null)
      let tail ← make_call_bindings collectArgs numParams argVals
        (i + 1) rest
      pure ((n, argVal) :: tail)

/-! ## The evaluator (`src/eval/mod.rs` and `src/eval/bind.rs`)

All functions of the mutual-recursion nest take an explicit fuel as their
first argument and consume one unit per call; `EvalM.noFuel` signals
exhaustion.  The runtime error messages that quote a fragment in the Rust
source are reproduced without the quote characters. -/

mutual

/-- `eval_expr` (`src/eval/mod.rs:472`). -/
def eval_expr (fuel : Nat) (ctx : EvaluationContext) (scopes : ScopeStack)
    (expr : Expr) : EvalM SourcedValue :=
  match fuel with
  | 0 => EvalM.noFuel
  | fuel + 1 =>
      match expr with
      | .mk rawExpr (line, col) =>
          let locErr {α : Type} (source : Error) : EvalM α :=
            EvalM.throw (.AtLoc source line col)
          match rawExpr with
          | .Null => pure new_null
          | .Bool b => pure (new_bool b)
          | .Int n => pure (new_int n)
          | .Str s interpolationSlots =>
              match interpolationSlots with
              | some _ => do
                  let v ← interpolate_string.context "InterpolateStringFailed"
                  pure (new_str_from_string v)
              | none => pure (new_str_from_string s)
          | .Var name => fun st =>
              match ScopeStack.get scopes st name with
              | some v => (.ok v, st)
              | none => (.err (.AtLoc (.Undefined name) line col), st)
          | .UnaryOp op opLoc e => do
              let value ← (eval_expr fuel ctx scopes e).context "EvalUnaryOpFailed"
              let v ← (EvalM.ofExcept
                (apply_unary_operation op opLoc value.v)).context "ApplyUnaryOpFailed"
              pure (new_val_ref_with_no_source v)
          | .BinaryOp op opLoc lhs rhs => do
              let lhsVal ← (eval_expr fuel ctx scopes lhs).context "EvalBinOpLhsFailed"
              let rhsVal ← (eval_expr fuel ctx scopes rhs).context "EvalBinOpRhsFailed"
              let v ← (apply_binary_operation fuel op opLoc lhsVal.v
                rhsVal.v).context "ApplyBinOpFailed"
              pure (new_val_ref_with_no_source v)
          | .List items collect =>
              if collect then locErr .ListCollectOutsideDestructure
              else do
                let vals ← (eval_list_items fuel ctx scopes items).context "EvalListItemsFailed"
                new_list vals
          | .Index e locat => do
              let sourceVal ← (eval_expr fuel ctx scopes e).context "EvalSourceExprFailed"
              match sourceVal.v with
              | .Str s => do
                  let index ← (eval_expr_to_index fuel ctx scopes
                    locat).context "EvalStringIndexFailed"
                  match s.get? index with
                  | some c => pure (new_str [c])
                  | none => locErr (.Runtime ("index " ++ toString index ++
                      " is outside the string bounds"))
              | .List listAddr => do
                  let index ← (eval_expr_to_index fuel ctx scopes
                    locat).context "EvalListIndexFailed"
                  let st ← EvalM.getStore
                  match (st.getList listAddr).get? index with
                  | some v => pure v
                  | none => locErr (.Runtime ("index " ++ toString index ++
                      " is outside the list bounds"))
              | .Object propsAddr => do
                  let name ← (eval_expr_to_str fuel ctx scopes "property"
                    locat).context "EvalObjectIndexFailed"
                  let st ← EvalM.getStore
                  match btree_get (st.getObject propsAddr) name with
                  | some value =>
                      pure (new_val_ref_with_source value.v sourceVal.v)
                  | none => locErr (.Runtime
                      ("object does not contain property " ++ name))
              | _ => locErr .ValueNotIndexable
          | .RangeIndex e maybeStart maybeEnd => do
              let startVal ←
                match maybeStart with
                | some s => do
                    let v ← (eval_expr_to_index fuel ctx scopes s).context "EvalStartIndexFailed"
                    pure (some v)
                | none => pure Option.none
              let endVal ←
                match maybeEnd with
                | some s => do
                    let v ← (eval_expr_to_index fuel ctx scopes s).context "EvalEndIndexFailed"
                    pure (some v)
                | none => pure Option.none
              let value ← (eval_expr fuel ctx scopes e).context "EvalExprFailed"
              match value.v with
              | .Str s =>
                  match get_str_range_index s startVal endVal with
                  | .ok v => pure v
                  | .error source =>
                      locErr (.Chain "EvalStringRangeIndexFailed" source)
              | .List itemsAddr => fun st =>
                  match ((get_list_range_index itemsAddr startVal endVal) st) with
                  | (.err source, st1) =>
                      (.err (.AtLoc
                        (.Chain "EvalListRangeIndexFailed" source)
                        line col), st1)
                  | r => r
              | _ => locErr .ValueNotRangeIndexable
          | .Range startE endE => do
              let start ← (eval_expr_to_i64 fuel ctx scopes "range start"
                startE).context "EvalRangeStartFailed"
              let stop ← (eval_expr_to_i64 fuel ctx scopes "range end"
                endE).context "EvalRangeEndFailed"
              new_list ((int_range start stop).map new_int)
          | .Object props => do
              let vals ← eval_object_props fuel ctx scopes (line, col)
                props []
              new_object vals
          | .PropAccess e name typeProp => do
              let source ← (eval_expr fuel ctx scopes e).context "EvalPropFailed"
              let namespc ←
                if typeProp then
                  match source.v with
                  | .Bool _ => pure ctx.builtins.typeFunctions.bools
                  | .Int _ => pure ctx.builtins.typeFunctions.ints
                  | .Str _ => pure ctx.builtins.typeFunctions.strs
                  | .List _ => pure ctx.builtins.typeFunctions.lists
                  | .Object _ => pure ctx.builtins.typeFunctions.objects
                  | .BuiltinFunc _ _ => pure ctx.builtins.typeFunctions.funcs
                  | .Func _ => pure ctx.builtins.typeFunctions.funcs
                  | .Null => locErr .TypeFunctionOnNull
                else
                  match source.v with
                  | .Object propsAddr => do
                      let st ← EvalM.getStore
                      pure (st.getObject propsAddr)
                  | value => locErr (.PropAccessOnNonObject value)
              match btree_get namespc name with
              | some value =>
                  pure (new_val_ref_with_source value.v source.v)
              | none =>
                  if typeProp then
                    locErr (.TypeFunctionNotFound source.v name)
                  else
                    locErr (.Runtime
                      ("object does not contain property " ++ name))
          | .Func args collectArgs stmts =>
              let closure := scopes
              new_func none args collectArgs stmts closure
          | .Call func args =>
              (eval_call fuel ctx scopes func args (line, col)).context "EvalCallFailed"
          | .CatchAsBool e => fun st =>
              match (eval_expr fuel ctx scopes e) st with
              | (.ok v, st1) => (new_list [v, new_bool true]) st1
              | (.err err, st1) =>
                  match root_error err with
                  | .Runtime _ =>
                      (new_list [new_null, new_bool false]) st1
                  | _ => (.err (.EvalCatchAsBoolFailed err), st1)
              | (.panic m, st1) => (.panic m, st1)
              | (.noFuel, st1) => (.noFuel, st1)

termination_by structural fuel
/-- The property loop of the `RawExpr::Object` arm
(`src/eval/mod.rs:713`): later occurrences of a key overwrite earlier
ones via `BTreeMap::insert`. -/
def eval_object_props (fuel : Nat) (ctx : EvaluationContext)
    (scopes : ScopeStack) (objLoc : Location) (props : List PropItem)
    (vals : List (String × SourcedValue)) :
    EvalM (List (String × SourcedValue)) :=
  match fuel with
  | 0 => EvalM.noFuel
  | fuel + 1 =>
      match props with
      | [] => pure vals
      | .Pair nameExpr value :: rest => do
          let name ← (eval_expr_to_str fuel ctx scopes "property name"
            nameExpr).context "EvalPropNameFailed"
          let v ← (eval_expr fuel ctx scopes value).context "EvalPropValueFailed"
          eval_object_props fuel ctx scopes objLoc rest
            (btree_insert vals name v)
      | .Single expr isSpread collect :: rest =>
          if collect then
            EvalM.throw (.AtLoc .ObjectCollectOutsideDestructure
              objLoc.1 objLoc.2)
          else if isSpread then do
            let value ← (eval_expr fuel ctx scopes expr).context "EvalExprFailed"
            match value.v with
            | .Object propsAddr => do
                let st ← EvalM.getStore
                let merged := (st.getObject propsAddr).foldl
                  (fun m p => btree_insert m p.1 p.2) vals
                eval_object_props fuel ctx scopes objLoc rest merged
            | value =>
                EvalM.throw (.AtLoc (.SpreadNonObjectInObject value)
                  expr.loc.1 expr.loc.2)
          else
            match expr with
            | .mk (.Var name) (eline, ecol) => fun st =>
                match ScopeStack.get scopes st name with
                | some v =>
                    (eval_object_props fuel ctx scopes objLoc rest
                      (btree_insert vals name v)) st
                | none =>
                    (.err (.AtLoc (.Undefined name) eline ecol), st)
            | .mk _ (eline, ecol) =>
                EvalM.throw (.AtLoc .ObjectPropShorthandNotVar eline ecol)

termination_by structural fuel
/-- `eval_list_items` (`src/eval/mod.rs:1410`): evaluate in source order,
inlining the elements of a spread list. -/
def eval_list_items (fuel : Nat) (ctx : EvaluationContext)
    (scopes : ScopeStack) (items : List ListItem) :
    EvalM (List SourcedValue) :=
  match fuel with
  | 0 => EvalM.noFuel
  | fuel + 1 =>
      match items with
      | [] => pure []
      | .mk expr isSpread :: rest => do
          let v ← (eval_expr fuel ctx scopes expr).context "EvalListItemFailed"
          if !isSpread then do
            let tail ← eval_list_items fuel ctx scopes rest
            pure (v :: tail)
          else
            match v.v with
            | .List itemsAddr => do
                let st ← EvalM.getStore
                let spreadVals := st.getList itemsAddr
                let tail ← eval_list_items fuel ctx scopes rest
                pure (spreadVals ++ tail)
            | value =>
                EvalM.throw (.AtLoc (.SpreadNonListInList value)
                  expr.loc.1 expr.loc.2)

termination_by structural fuel
/-- `eval_call` (`src/eval/mod.rs:1452`): the argument list is evaluated
first, then the callee expression; then the call is dispatched. -/
def eval_call (fuel : Nat) (ctx : EvaluationContext) (scopes : ScopeStack)
    (func : Expr) (args : List ListItem) (loc : Location) :
    EvalM SourcedValue :=
  match fuel with
  | 0 => EvalM.noFuel
  | fuel + 1 =>
      let (line, col) := loc
      do
        let argVals ← (eval_list_items fuel ctx scopes args).context "EvalCallArgsFailed"
        let funcVal ← (eval_expr fuel ctx scopes func).context "EvalCallFuncFailed"
        match funcVal.v with
        | .BuiltinFunc name fid =>
            let this := funcVal.source.map new_val_ref_with_no_source
            fun st =>
              match (apply_builtin fuel fid this argVals) st with
              | (.err e, st1) =>
                  (.err (.EvalBuiltinFuncCallFailed (some name)
                    (line, col) e), st1)
              | r => r
        | .Func faddr => do
            let st ← EvalM.getStore
            let f := st.funcs.getD faddr
              {name := none, args := [], collectArgs := false,
               stmts := [], closure := []}
            let numParams := f.args.length
            let got := argVals.length
            let arityErr : Option Error :=
              if f.collectArgs then
                if numParams - 1 > got then
                  some (.AtLoc (.TooFewArgs (numParams - 1) got) line col)
                else none
              else
                if numParams ≠ got then
                  some (.AtLoc (.ArgNumMismatch numParams got) line col)
                else none
            match arityErr with
            | some e => EvalM.throw e
            | none => do
                let bindings0 ← make_call_bindings f.collectArgs numParams
                  argVals 0 f.args
                let bindings :=
                  match funcVal.source with
                  | some this =>
                      bindings0 ++ [(Expr.mk (.Var "this") (0, 0),
                        new_val_ref_with_no_source this)]
                  | none => bindings0
                let escape ← fun st1 =>
                  match ((eval_stmts fuel ctx f.closure bindings f.stmts) st1) with
                  | (.err e, st2) =>
                      (.err (.EvalFuncCallFailed f.name (line, col) e),
                       st2)
                  | r => r
                match escape with
                | .None => pure new_null
                | .Break _ => EvalM.throw .BreakOutsideLoop
                | .Continue _ => EvalM.throw .ContinueOutsideLoop
                | .Return value _ => pure value
        | v => EvalM.throw (.AtLoc (.CannotCallNonFunc v) line col)

termination_by structural fuel
/-- `eval_expr_to_str` (`src/eval/mod.rs:1264`); `String::from_utf8` is
modelled as total. -/
def eval_expr_to_str (fuel : Nat) (ctx : EvaluationContext)
    (scopes : ScopeStack) (descr : String) (expr : Expr) : EvalM String :=
  match fuel with
  | 0 => EvalM.noFuel
  | fuel + 1 => do
      let value ← (eval_expr fuel ctx scopes expr).context "EvalExprFailed"
      match value.v with
      | .Str s => pure (String.mk s)
      | v => EvalM.throw (.AtLoc (.IncorrectType descr "string" v)
          expr.loc.1 expr.loc.2)

termination_by structural fuel
/-- `eval_expr_to_bool` (`src/eval/mod.rs:1299`). -/
def eval_expr_to_bool (fuel : Nat) (ctx : EvaluationContext)
    (scopes : ScopeStack) (descr : String) (expr : Expr) : EvalM Bool :=
  match fuel with
  | 0 => EvalM.noFuel
  | fuel + 1 => do
      let value ← (eval_expr fuel ctx scopes expr).context "EvalExprFailed"
      match value.v with
      | .Bool b => pure b
      | v => EvalM.throw (.AtLoc (.IncorrectType descr "bool" v)
          expr.loc.1 expr.loc.2)

termination_by structural fuel
/-- `eval_expr_to_i64` (`src/eval/mod.rs:1325`). -/
def eval_expr_to_i64 (fuel : Nat) (ctx : EvaluationContext)
    (scopes : ScopeStack) (descr : String) (expr : Expr) : EvalM Int :=
  match fuel with
  | 0 => EvalM.noFuel
  | fuel + 1 => do
      let value ← (eval_expr fuel ctx scopes expr).context "EvalExprFailed"
      match value.v with
      | .Int n => pure n
      | v => EvalM.throw (.AtLoc (.IncorrectType descr "int" v)
          expr.loc.1 expr.loc.2)

termination_by structural fuel
/-- `eval_expr_to_index` (`src/eval/mod.rs:1351`); the `usize` cast of a
non-negative `i64` is modelled as total. -/
def eval_expr_to_index (fuel : Nat) (ctx : EvaluationContext)
    (scopes : ScopeStack) (expr : Expr) : EvalM Nat :=
  match fuel with
  | 0 => EvalM.noFuel
  | fuel + 1 => do
      let index ← (eval_expr_to_i64 fuel ctx scopes "index" expr).context "EvalIndexToI64Failed"
      if index < 0 then
        EvalM.throw (.AtLoc (.NegativeIndex index) expr.loc.1 expr.loc.2)
      else pure index.toNat

termination_by structural fuel
/-- `eval_stmts` (`src/eval/mod.rs:116`): evaluate `stmts` in a freshly
pushed scope holding `newBindings`. -/
def eval_stmts (fuel : Nat) (ctx : EvaluationContext) (scopes : ScopeStack)
    (newBindings : List (Expr × SourcedValue)) (stmts : Block) :
    EvalM Escape :=
  match fuel with
  | 0 => EvalM.noFuel
  | fuel + 1 => do
      let newScopes ← push_scope scopes
      bind_all fuel ctx newScopes newBindings
      (eval_stmts_with_scope_stack fuel ctx newScopes stmts).context "EvalStmtsWithScopeStackFailed"

termination_by structural fuel
/-- The binding loop of `eval_stmts`. -/
def bind_all (fuel : Nat) (ctx : EvaluationContext) (scopes : ScopeStack)
    (bindings : List (Expr × SourcedValue)) : EvalM Unit :=
  match fuel with
  | 0 => EvalM.noFuel
  | fuel + 1 =>
      match bindings with
      | [] => pure ()
      | (lhs, rhs) :: rest => do
          (Ash.bind fuel ctx scopes lhs rhs .Declaration).context "BindFailed"
          bind_all fuel ctx scopes rest

termination_by structural fuel
/-- `eval_stmts_with_scope_stack` (`src/eval/mod.rs:137`). -/
def eval_stmts_with_scope_stack (fuel : Nat) (ctx : EvaluationContext)
    (scopes : ScopeStack) (stmts : Block) : EvalM Escape :=
  match fuel with
  | 0 => EvalM.noFuel
  | fuel + 1 =>
      match stmts with
      | [] => pure .None
      | stmt :: rest => do
          let v ← (eval_stmt fuel ctx scopes stmt).context "EvalStmtFailed"
          match v with
          | .None => eval_stmts_with_scope_stack fuel ctx scopes rest
          | _ => pure v

termination_by structural fuel
/-- `eval_stmts_in_new_scope` (`src/eval/mod.rs:461`). -/
def eval_stmts_in_new_scope (fuel : Nat) (ctx : EvaluationContext)
    (scopes : ScopeStack) (stmts : Block) : EvalM Escape :=
  match fuel with
  | 0 => EvalM.noFuel
  | fuel + 1 => eval_stmts fuel ctx scopes [] stmts

termination_by structural fuel
/-- `eval_stmt` (`src/eval/mod.rs:165`). -/
def eval_stmt (fuel : Nat) (ctx : EvaluationContext) (scopes : ScopeStack)
    (stmt : Stmt) : EvalM Escape :=
  match fuel with
  | 0 => EvalM.noFuel
  | fuel + 1 =>
      match stmt with
      | .Block block => do
          -- The escape of a bare block statement is discarded by the
          -- Rust source (`eval_stmts_in_new_scope(...)?;`).
          let _ ← (eval_stmts_in_new_scope fuel ctx scopes block).context "EvalBlockFailed"
          pure .None
      | .Expr expr => do
          let _ ← (eval_expr fuel ctx scopes expr).context "EvalExprFailed"
          pure .None
      | .Declare lhs rhs => do
          let v ← (eval_expr fuel ctx scopes rhs).context "EvalDeclarationRhsFailed"
          (Ash.bind fuel ctx scopes lhs v .Declaration).context "DeclarationBindFailed"
          pure .None
      | .Assign lhs rhs => do
          let v ← (eval_expr fuel ctx scopes rhs).context "EvalAssignmentRhsFailed"
          (Ash.bind fuel ctx scopes lhs v .Assignment).context "AssignmentBindFailed"
          pure .None
      | .OpAssign lhs op opLoc rhs => do
          let rhsVal ← (eval_expr fuel ctx scopes rhs).context "EvalBinOpRhsFailed"
          let _ ← (bind_next fuel ctx scopes [] lhs rhsVal
            (some (op, opLoc)) .Assignment).context "OpAssignmentBindFailed"
          pure .None
      | .If branches elseStmts =>
          if_branches fuel ctx scopes branches elseStmts
      | .While cond stmts =>
          while_loop fuel ctx scopes cond stmts
      | .For lhs iter stmts => do
          let iterVal ← (eval_expr fuel ctx scopes iter).context "EvalForIterFailed"
          let st ← EvalM.getStore
          match value_to_pairs st iterVal.v with
          | .ok pairs => for_loop fuel ctx scopes lhs pairs stmts
          | .error e => EvalM.throw (.Chain "ConvertForIterToPairsFailed" e)
      | .Break loc => pure (.Break loc)
      | .Continue loc => pure (.Continue loc)
      | .Func name nameLoc args collectArgs stmts => do
          (EvalM.ofRes (validate_args fuel args)).context "ValidateArgsFailed"
          let closure := scopes
          let func ← new_func (some name) args collectArgs stmts closure
          (bind_name fuel scopes name nameLoc func .Declaration).context "DeclareFunctionFailed"
          pure .None
      | .Return loc expr => do
          let v ← (eval_expr fuel ctx scopes expr).context "EvalReturnExprFailed"
          pure (.Return v loc)

termination_by structural fuel
/-- The branch loop of `Stmt::If` (`src/eval/mod.rs:215`). -/
def if_branches (fuel : Nat) (ctx : EvaluationContext)
    (scopes : ScopeStack) (branches : List Branch)
    (elseStmts : Option Block) : EvalM Escape :=
  match fuel with
  | 0 => EvalM.noFuel
  | fuel + 1 =>
      match branches with
      | [] =>
          match elseStmts with
          | some stmts =>
              (eval_stmts_in_new_scope fuel ctx scopes stmts).context "EvalElseStatementsFailed"
          | none => pure .None
      | .mk cond stmts :: rest => do
          let b ← (eval_expr_to_bool fuel ctx scopes "condition"
            cond).context "EvalIfConditionFailed"
          if b then
            (eval_stmts_in_new_scope fuel ctx scopes stmts).context "EvalIfStatementsFailed"
          else
            if_branches fuel ctx scopes rest elseStmts

termination_by structural fuel
/-- The loop of `Stmt::While` (`src/eval/mod.rs:236`). -/
def while_loop (fuel : Nat) (ctx : EvaluationContext)
    (scopes : ScopeStack) (cond : Expr) (stmts : Block) : EvalM Escape :=
  match fuel with
  | 0 => EvalM.noFuel
  | fuel + 1 => do
      let b ← (eval_expr_to_bool fuel ctx scopes "condition" cond).context "EvalWhileConditionFailed"
      if !b then pure .None
      else do
        let escape ← (eval_stmts_in_new_scope fuel ctx scopes
          stmts).context "EvalWhileStatementsFailed"
        match escape with
        | .None => while_loop fuel ctx scopes cond stmts
        | .Break _ => pure .None
        | .Continue _ => while_loop fuel ctx scopes cond stmts
        | .Return _ _ => pure escape

termination_by structural fuel
/-- The loop of `Stmt::For` (`src/eval/mod.rs:264`): iterate the pair
list that was materialized at loop entry; each iteration allocates the
two-element `[key, value]` list and binds it in a fresh scope. -/
def for_loop (fuel : Nat) (ctx : EvaluationContext) (scopes : ScopeStack)
    (lhs : Expr) (pairs : List (SourcedValue × SourcedValue))
    (stmts : Block) : EvalM Escape :=
  match fuel with
  | 0 => EvalM.noFuel
  | fuel + 1 =>
      match pairs with
      | [] => pure .None
      | (key, value) :: rest => do
          let pair ← new_list [key, value]
          let escape ← (eval_stmts fuel ctx scopes [(lhs, pair)]
            stmts).context "EvalForStatementsFailed"
          match escape with
          | .None => for_loop fuel ctx scopes lhs rest stmts
          | .Break _ => pure .None
          | .Continue _ => for_loop fuel ctx scopes lhs rest stmts
          | .Return _ _ => pure escape

termination_by structural fuel
/-- `bind` (`src/eval/bind.rs:42`). -/
def bind (fuel : Nat) (ctx : EvaluationContext) (scopes : ScopeStack)
    (lhs : Expr) (rhs : SourcedValue) (bindType : BindType) : EvalM Unit :=
  match fuel with
  | 0 => EvalM.noFuel
  | fuel + 1 => do
      let _ ← bind_next fuel ctx scopes [] lhs rhs none bindType
      pure ()

termination_by structural fuel
/-- `bind_next` (`src/eval/bind.rs:63`); the set of names already bound in
this binding is threaded through and returned (Rust passes it by mutable
reference). -/
def bind_next (fuel : Nat) (ctx : EvaluationContext) (scopes : ScopeStack)
    (names : NameSet) (lhs : Expr) (rhs : SourcedValue)
    (op : Option (BinaryOp × Location)) (bindType : BindType) :
    EvalM NameSet :=
  match fuel with
  | 0 => EvalM.noFuel
  | fuel + 1 =>
      match lhs with
      | .mk rawLhs (line, col) =>
          let locErr {α : Type} (source : Error) : EvalM α :=
            EvalM.throw (.AtLoc source line col)
          match rawLhs with
          | .Var name =>
              bind_next_name fuel scopes names name (line, col) rhs op
                bindType
          | .Index e locat => do
              let value ← (eval_expr fuel ctx scopes e).context "EvalExprFailed"
              match value.v with
              | .List itemsAddr => do
                  let n ← (eval_expr_to_index fuel ctx scopes
                    locat).context "EvalListIndexFailed"
                  let st ← EvalM.getStore
                  let items := st.getList itemsAddr
                  if n ≥ items.length then
                    locErr (.Runtime ("index " ++ toString n ++
                      " is outside the list bounds"))
                  else do
                    let lhsVal := items.getD n new_null
                    let newVal ← (binary_operation_assign fuel lhsVal rhs
                      op).context "BinOpAssignListIndexFailed"
                    let st2 ← EvalM.getStore
                    EvalM.setStore (st2.setList itemsAddr
                      ((st2.getList itemsAddr).set n newVal))
                    pure names
              | .Object propsAddr => do
                  let name ← (eval_expr_to_str fuel ctx scopes "property"
                    locat).context "EvalObjectIndexFailed"
                  let st ← EvalM.getStore
                  match btree_get (st.getObject propsAddr) name with
                  | some slot => do
                      let newVal ← (binary_operation_assign fuel slot rhs
                        op).context "BinOpAssignObjectIndexFailed"
                      let st2 ← EvalM.getStore
                      EvalM.setStore (st2.setObject propsAddr
                        (btree_insert (st2.getObject propsAddr) name
                          newVal))
                      pure names
                  | none =>
                      if op.isSome then locErr (.OpOnUndefinedIndex name)
                      else do
                        let st2 ← EvalM.getStore
                        EvalM.setStore (st2.setObject propsAddr
                          (btree_insert (st2.getObject propsAddr) name
                            rhs))
                        pure names
              | _ => locErr .ValueNotIndexAssignable
          | .RangeIndex e startE endE =>
              if op.isSome then locErr .OpOnRangeIndex
              else do
                let value ← (eval_expr fuel ctx scopes e).context "EvalExprFailed"
                match value.v with
                | .List lhsItems =>
                    match rhs.v with
                    | .List rhsItems => do
                        let st ← EvalM.getStore
                        let rhsVals := st.getList rhsItems
                        bind_range_index fuel ctx scopes lhsItems startE
                          endE (line, col) rhsVals
                        pure names
                    | .Str s => do
                        let chars := s.map (fun c => new_str [c])
                        bind_range_index fuel ctx scopes lhsItems startE
                          endE (line, col) chars
                        pure names
                    | value =>
                        locErr (.RangeIndexAssignOnNonIndexable value)
                | _ => locErr .ValueNotRangeIndexAssignable
          | .PropAccess e name typeProp =>
              if typeProp then locErr .AssignToTypeProp
              else do
                let value ← (eval_expr fuel ctx scopes e).context "EvalExprFailed"
                match value.v with
                | .Object propsAddr => do
                    let st ← EvalM.getStore
                    match btree_get (st.getObject propsAddr) name with
                    | some slot => do
                        let newVal ← (binary_operation_assign fuel slot
                          rhs op).context "BinOpAssignPropFailed"
                        let st2 ← EvalM.getStore
                        EvalM.setStore (st2.setObject propsAddr
                          (btree_insert (st2.getObject propsAddr) name
                            newVal))
                        pure names
                    | none =>
                        if op.isSome then locErr (.OpOnUndefinedProp name)
                        else do
                          let st2 ← EvalM.getStore
                          EvalM.setStore (st2.setObject propsAddr
                            (btree_insert (st2.getObject propsAddr) name
                              rhs))
                          pure names
                | value => locErr (.PropAccessOnNonObject value)
          | .Object lhsProps =>
              if op.isSome then locErr .OpOnObjectDestructure
              else
                match rhs.v with
                | .Object rhsProps =>
                    bind_object fuel ctx scopes names lhsProps rhsProps
                      bindType
                | value => locErr (.ObjectDestructureOnNonObject value)
          | .List lhsItems collect =>
              if op.isSome then locErr .OpOnListDestructure
              else
                match rhs.v with
                | .List rhsItems =>
                    bind_list fuel ctx scopes names lhsItems collect
                      (line, col) rhsItems bindType
                | value => locErr (.ListDestructureOnNonList value)
          | .Null => locErr (.InvalidBindTarget "null")
          | .Bool _ => locErr (.InvalidBindTarget "a boolean literal")
          | .Int _ => locErr (.InvalidBindTarget "an integer literal")
          | .Str _ _ => locErr (.InvalidBindTarget "a string literal")
          | .UnaryOp _ _ _ =>
              locErr (.InvalidBindTarget "a unary operation")
          | .BinaryOp _ _ _ _ =>
              locErr (.InvalidBindTarget "a binary operation")
          | .Range _ _ => locErr (.InvalidBindTarget "a range operation")
          | .Func _ _ _ =>
              locErr (.InvalidBindTarget "an anonymous function")
          | .Call _ _ => locErr (.InvalidBindTarget "a function call")
          | .CatchAsBool _ => locErr (.InvalidBindTarget "a boolean catch")

termination_by structural fuel
/-- `bind_range_index` (`src/eval/bind.rs:412`): an omitted start
defaults to `0`; an omitted end defaults to the length of the right-hand
side; the bounds are checked in the order start-bound, start-before-end,
end-bound, length-match, each with its own error kind. -/
def bind_range_index (fuel : Nat) (ctx : EvaluationContext)
    (scopes : ScopeStack) (lhsItemsAddr : Nat)
    (maybeStart maybeEnd : Option Expr) (lhsLoc : Location)
    (rhsItems : List SourcedValue) : EvalM Unit :=
  match fuel with
  | 0 => EvalM.noFuel
  | fuel + 1 => do
      let (line, col) := lhsLoc
      let start ←
        match maybeStart with
        | some s => (eval_expr_to_index fuel ctx scopes s).context "EvalStartIndexFailed"
        | none => pure 0
      let rhsLen := rhsItems.length
      let stop ←
        match maybeEnd with
        | some e => (eval_expr_to_index fuel ctx scopes e).context "EvalEndIndexFailed"
        | none => pure rhsLen
      let st ← EvalM.getStore
      let listLen := (st.getList lhsItemsAddr).length
      if start > listLen then
        EvalM.throw (.AtLoc (.RangeStartOutOfListBounds start listLen)
          line col)
      else if start ≥ stop then
        EvalM.throw (.AtLoc (.RangeStartNotBeforeEnd start stop) line col)
      else if stop > listLen then
        EvalM.throw (.AtLoc (.RangeEndOutOfListBounds stop listLen)
          line col)
      else
        let rangeLen := stop - start
        if rangeLen ≠ rhsLen then
          EvalM.throw (.AtLoc (.RangeIndexItemMismatch rangeLen rhsLen)
            line col)
        else
          EvalM.setStore (st.setList lhsItemsAddr
            (set_slots (st.getList lhsItemsAddr) start rhsItems))

termination_by structural fuel
/-- `bind_object` (`src/eval/bind.rs:472`). -/
def bind_object (fuel : Nat) (ctx : EvaluationContext)
    (scopes : ScopeStack) (names : NameSet) (lhs : List PropItem)
    (rhsAddr : Nat) (bindType : BindType) : EvalM NameSet :=
  match fuel with
  | 0 => EvalM.noFuel
  | fuel + 1 => do
      let st ← EvalM.getStore
      let remaining := btree_keys (st.getObject rhsAddr)
      bind_object_loop fuel ctx scopes names lhs rhsAddr bindType
        remaining 0 lhs.length

termination_by structural fuel
/-- The item loop of `bind_object`; `remaining` is the set of keys of the
right-hand object not yet consumed, `i` the item index, `total` the item
count. -/
def bind_object_loop (fuel : Nat) (ctx : EvaluationContext)
    (scopes : ScopeStack) (names : NameSet) (items : List PropItem)
    (rhsAddr : Nat) (bindType : BindType) (remaining : List String)
    (i total : Nat) : EvalM NameSet :=
  match fuel with
  | 0 => EvalM.noFuel
  | fuel + 1 =>
      match items with
      | [] => pure names
      | .Single expr isSpread collect :: rest =>
          match expr with
          | .mk rawExpr (pline, pcol) =>
              let locErr {α : Type} (source : Error) : EvalM α :=
                EvalM.throw (.AtLoc source pline pcol)
              if isSpread then locErr .SpreadOnObjectDestructure
              else do
                let propName ←
                  match rawExpr with
                  | .Var name => pure name
                  | _ => locErr .ObjectPropShorthandNotVar
                if collect then
                  if i ≠ total - 1 then locErr .ObjectCollectIsNotLast
                  else do
                    let st ← EvalM.getStore
                    let rhsProps := st.getObject rhsAddr
                    let newRhs := remaining.foldl
                      (fun m k => btree_insert m k
                        ((btree_get rhsProps k).getD new_null)) []
                    let obj ← new_object newRhs
                    let names2 ← (bind_next_name fuel scopes names
                      propName (pline, pcol) obj none bindType).context "BindObjectCollectFailed"
                    bind_object_loop fuel ctx scopes names2 rest rhsAddr
                      bindType remaining (i + 1) total
                else do
                  let names2 ← (bind_object_prop fuel ctx scopes names
                    expr rhsAddr propName (pline, pcol) bindType).context "BindObjectSingleFailed"
                  bind_object_loop fuel ctx scopes names2 rest rhsAddr
                    bindType (remaining.filter (fun k => k ≠ propName))
                    (i + 1) total
      | .Pair nameE newLhs :: rest => do
          let propName ← (eval_expr_to_str fuel ctx scopes "property"
            nameE).context "EvalObjectIndexFailed"
          let names2 ← (bind_object_prop fuel ctx scopes names newLhs
            rhsAddr propName nameE.loc bindType).context "BindObjectPairFailed"
          bind_object_loop fuel ctx scopes names2 rest rhsAddr bindType
            (remaining.filter (fun k => k ≠ propName)) (i + 1) total

termination_by structural fuel
/-- `bind_object_prop` (`src/eval/bind.rs:588`): a `_` name is a sink; a
key absent from the right-hand object raises a `Runtime` error (the Rust
message quotes the property name). -/
def bind_object_prop (fuel : Nat) (ctx : EvaluationContext)
    (scopes : ScopeStack) (names : NameSet) (lhs : Expr) (rhsAddr : Nat)
    (propName : String) (propNameLoc : Location) (bindType : BindType) :
    EvalM NameSet :=
  match fuel with
  | 0 => EvalM.noFuel
  | fuel + 1 =>
      if propName = "_" then pure names
      else do
        let st ← EvalM.getStore
        match btree_get (st.getObject rhsAddr) propName with
        | some newRhs =>
            (bind_next fuel ctx scopes names lhs newRhs none
              bindType).context "BindNextFailed"
        | none =>
            EvalM.throw (.AtLoc (.Runtime
              ("object does not contain property " ++ propName))
              propNameLoc.1 propNameLoc.2)

termination_by structural fuel
/-- `bind_list` (`src/eval/bind.rs:626`). -/
def bind_list (fuel : Nat) (ctx : EvaluationContext) (scopes : ScopeStack)
    (names : NameSet) (lhsItems : List ListItem) (collect : Bool)
    (lhsLoc : Location) (rhsAddr : Nat) (bindType : BindType) :
    EvalM NameSet :=
  match fuel with
  | 0 => EvalM.noFuel
  | fuel + 1 => do
      let (line, col) := lhsLoc
      let st ← EvalM.getStore
      let lhsLen := lhsItems.length
      let rhsLen := (st.getList rhsAddr).length
      if collect then
        if lhsLen - 1 > rhsLen then
          EvalM.throw (.AtLoc (.ListCollectTooFew lhsLen rhsLen) line col)
        else
          bind_list_items fuel ctx scopes names lhsItems collect lhsLoc
            rhsAddr bindType 0 lhsLen
      else
        if lhsLen ≠ rhsLen then
          EvalM.throw (.AtLoc (.ListDestructureItemMismatch lhsLen rhsLen)
            line col)
        else
          bind_list_items fuel ctx scopes names lhsItems collect lhsLoc
            rhsAddr bindType 0 lhsLen

termination_by structural fuel
/-- The element loop of `bind_list`; with `collect`, the final element
binds a freshly allocated list of the trailing right-hand items. -/
def bind_list_items (fuel : Nat) (ctx : EvaluationContext)
    (scopes : ScopeStack) (names : NameSet) (items : List ListItem)
    (collect : Bool) (lhsLoc : Location) (rhsAddr : Nat)
    (bindType : BindType) (i lhsLen : Nat) : EvalM NameSet :=
  match fuel with
  | 0 => EvalM.noFuel
  | fuel + 1 =>
      match items with
      | [] => pure names
      | .mk lhsE isSpread :: rest =>
          if isSpread then
            EvalM.throw (.AtLoc (.SpreadInListDestructure i) lhsLoc.1
              lhsLoc.2)
          else do
            let st ← EvalM.getStore
            let rhsItems := st.getList rhsAddr
            let rhsV ←
              if collect ∧ i = lhsLen - 1 then
                new_list (rhsItems.drop (lhsLen - 1))
              else
                pure (rhsItems.getD i new_null)
            let names2 ← (bind_next fuel ctx scopes names lhsE rhsV none
              bindType).context "BindListItemFailed"
            bind_list_items fuel ctx scopes names2 rest collect lhsLoc
              rhsAddr bindType (i + 1) lhsLen

termination_by structural fuel
end

/-- `eval_prog` (`src/eval/mod.rs:65`). -/
def eval_prog (fuel : Nat) (ctx : EvaluationContext) (scopes : ScopeStack)
    (globalBindings : List (RawExpr × SourcedValue)) (prog : Prog) :
    EvalM Unit :=
  match prog with
  | .Body stmts => do
      let bindings := globalBindings.map
        (fun p => (Expr.mk p.1 (0, 0), p.2))
      let v ← (eval_stmts fuel ctx scopes bindings stmts).context "EvalStmtsFailed"
      match v with
      | .None => pure ()
      | .Break (line, col) =>
          EvalM.throw (.AtLoc .BreakOutsideLoop line col)
      | .Continue (line, col) =>
          EvalM.throw (.AtLoc .ContinueOutsideLoop line col)
      | .Return _ (line, col) =>
          EvalM.throw (.AtLoc .ReturnOutsideFunction line col)

/-! ## Auxiliary definitions used by the theorems -/

/-- The empty heap. -/
def emptyStore : Store := ⟨[], [], [], [], []⟩

/-- Whether a value is a function (user or builtin): the two variants on
which structural equality `==` is undefined. -/
def value_isFunction : Value → Bool
  | .Func _ => true
  | .BuiltinFunc _ _ => true
  | _ => false

/-- The value of the last occurrence of key `k` in a key-value list (used
to state the duplicate-key claim about object literals). -/
def lookup_last (kvs : List (String × Int)) (k : String) : Option Int :=
  match kvs with
  | [] => none
  | (k0, v0) :: rest =>
      match lookup_last rest k with
      | some v => some v
      | none => if k0 = k then some v0 else none

/-- Build the `PropItem` list of an object literal whose keys are string
literals and whose values are integer literals. -/
def literal_props (kvs : List (String × Int)) : List PropItem :=
  kvs.map (fun kv =>
    PropItem.Pair (.mk (.Str kv.1 none) (9, 9)) (.mk (.Int kv.2) (9, 9)))

/-- The object-literal association list produced by a literal key-value
list: a left fold of `BTreeMap::insert`. -/
def literal_insert_all (kvs : List (String × Int)) :
    List (String × SourcedValue) :=
  kvs.foldl (fun m kv => btree_insert m kv.1 (new_int kv.2)) []

/-- A program that discriminates snapshot iteration from live iteration:
`o := {"a": 1}; n := 0; for [k, v] in o { o["z"] = 1; n = n + 1 }`.
Under the materialized-pairs semantics the loop body runs exactly once;
an implementation iterating the live object would also visit the key
`"z"` inserted by the body. -/
def for_snapshot_prog : Block :=
  [ .Declare (.mk (.Var "o") (1, 1))
      (.mk (.Object [.Pair (.mk (.Str "a" none) (1, 2))
        (.mk (.Int 1) (1, 3))]) (1, 4)),
    .Declare (.mk (.Var "n") (2, 1)) (.mk (.Int 0) (2, 2)),
    .For (.mk (.List [.mk (.mk (.Var "k") (3, 1)) false,
        .mk (.mk (.Var "v") (3, 2)) false] false) (3, 3))
      (.mk (.Var "o") (3, 4))
      [ .Assign (.mk (.Index (.mk (.Var "o") (4, 1))
          (.mk (.Str "z" none) (4, 2))) (4, 3)) (.mk (.Int 1) (4, 4)),
        .Assign (.mk (.Var "n") (5, 1))
          (.mk (.BinaryOp .Sum (5, 2) (.mk (.Var "n") (5, 3))
            (.mk (.Int 1) (5, 4))) (5, 5)) ] ]

/-! ## Arithmetic range lemmas -/

lemma neg_tmod_eq (a b : Int) : (-a).tmod b = -(a.tmod b) := by
  rw [Int.tmod_def, Int.tmod_def, Int.neg_tdiv]; ring

lemma tmod_natAbs_lt (a b : Int) (hb : b ≠ 0) :
    (a.tmod b).natAbs < b.natAbs := by
  rcases lt_trichotomy b 0 with hneg | rfl | hpos
  · have h1 : a.tmod b = a.tmod (-b) := (Int.tmod_neg a b).symm
    have hb2 : (0 : Int) < -b := by omega
    have := tmod_natAbs_lt_of_pos a (-b) hb2
    rw [h1]
    simp only [Int.natAbs_neg] at this ⊢
    exact this
  · exact absurd rfl hb
  · exact tmod_natAbs_lt_of_pos a b hpos
where
  tmod_natAbs_lt_of_pos (a b : Int) (hb : 0 < b) :
      (a.tmod b).natAbs < b.natAbs := by
    rcases le_or_lt 0 a with ha | ha
    · have h1 := Int.tmod_eq_emod ha (le_of_lt hb)
      have h2 := Int.emod_nonneg a (by omega : b ≠ 0)
      have h3 := Int.emod_lt_of_pos a hb
      omega
    · have h1 : a.tmod b = -((-a).tmod b) := by
        rw [neg_tmod_eq]; ring
      have ha2 : (0 : Int) ≤ -a := by omega
      have h2 := Int.tmod_eq_emod ha2 (le_of_lt hb)
      have h3 := Int.emod_nonneg (-a) (by omega : b ≠ 0)
      have h4 := Int.emod_lt_of_pos (-a) hb
      omega

lemma inI64_tmod (a b : Int) (hb : b ≠ 0) (hbr : inI64 b) :
    inI64 (a.tmod b) := by
  have h1 := tmod_natAbs_lt a b hb
  have h2 : b.natAbs ≤ 2 ^ 63 := by
    rcases hbr with ⟨hl, hr⟩
    simp only [i64Min, i64Max] at hl hr
    omega
  constructor <;> simp only [i64Min, i64Max] <;> omega

lemma inI64_tdiv (a b : Int) (ha : inI64 a) (hb : b ≠ 0)
    (hmin : ¬(a = i64Min ∧ b = -1)) : inI64 (a.tdiv b) := by
  rcases eq_or_ne b 1 with rfl | hb1
  · simpa [Int.tdiv_one] using ha
  rcases eq_or_ne b (-1) with rfl | hbm1
  · have hmain : a.tdiv (-1) = -a := by
      have h0 : a.tdiv (-1) = -(a.tdiv 1) := by
        rw [show ((-1 : Int)) = -(1 : Int) by norm_num, Int.tdiv_neg]
      rw [h0, Int.tdiv_one]
    rw [hmain]
    have hne : a ≠ i64Min := fun h => hmin ⟨h, rfl⟩
    rcases ha with ⟨hl, hr⟩
    constructor <;> simp only [i64Min, i64Max] at * <;> omega
  · have hb2 : 2 ≤ b.natAbs := by omega
    have habs := Int.natAbs_tdiv a b
    have haa : a.natAbs ≤ 2 ^ 63 := by
      rcases ha with ⟨hl, hr⟩
      simp only [i64Min, i64Max] at hl hr
      omega
    have hdiv : a.natAbs.div b.natAbs ≤ 2 ^ 63 / 2 := by
      calc a.natAbs.div b.natAbs = a.natAbs / b.natAbs := rfl
        _ ≤ 2 ^ 63 / 2 := Nat.div_le_div haa hb2 (by norm_num)
    have hfin : (a.tdiv b).natAbs ≤ 2 ^ 62 := by
      rw [habs]
      omega
    constructor <;> simp only [i64Min, i64Max] <;> omega


/-! ## Running the monad: small unfolding lemmas -/

@[simp] lemma evalm_pure_apply {α : Type} (a : α) (st : Store) :
    (pure a : EvalM α) st = (.ok a, st) := rfl

@[simp] lemma evalm_throw_apply {α : Type} (e : Error) (st : Store) :
    (EvalM.throw e : EvalM α) st = (.err e, st) := rfl

@[simp] lemma evalm_panic_apply {α : Type} (m : String) (st : Store) :
    (EvalM.panic m : EvalM α) st = (.panic m, st) := rfl

@[simp] lemma evalm_nofuel_apply {α : Type} (st : Store) :
    (EvalM.noFuel : EvalM α) st = (.noFuel, st) := rfl

@[simp] lemma evalm_getstore_apply (st : Store) :
    EvalM.getStore st = (.ok st, st) := rfl

@[simp] lemma evalm_setstore_apply (st st1 : Store) :
    EvalM.setStore st1 st = (.ok (), st1) := rfl

lemma evalm_bind_apply {α β : Type} (x : EvalM α) (f : α → EvalM β)
    (st : Store) :
    (x >>= f) st =
      match x st with
      | (.ok a, st1) => f a st1
      | (.err e, st1) => (.err e, st1)
      | (.panic m, st1) => (.panic m, st1)
      | (.noFuel, st1) => (.noFuel, st1) := rfl

lemma evalm_bind_ok {α β : Type} {x : EvalM α} {f : α → EvalM β}
    {st st1 : Store} {a : α} (h : x st = (.ok a, st1)) :
    (x >>= f) st = f a st1 := by
  rw [evalm_bind_apply, h]

lemma evalm_bind_err {α β : Type} {x : EvalM α} {f : α → EvalM β}
    {st st1 : Store} {e : Error} (h : x st = (.err e, st1)) :
    (x >>= f) st = (.err e, st1) := by
  rw [evalm_bind_apply, h]

lemma evalm_context_ok {α : Type} {x : EvalM α} {st st1 : Store} {a : α}
    (tag : String) (h : x st = (.ok a, st1)) :
    (x.context tag) st = (.ok a, st1) := by
  simp [EvalM.context, h]

lemma evalm_context_err {α : Type} {x : EvalM α} {st st1 : Store}
    {e : Error} (tag : String) (h : x st = (.err e, st1)) :
    (x.context tag) st = (.err (.Chain tag e), st1) := by
  simp [EvalM.context, h]

/-! ## C1: checked integer arithmetic -/

/-- C1 (counterexample): the claim asserts that every binary arithmetic
operation on two `Int` values either produces a valid i64 or raises a
runtime error and "never terminates the interpreter by any other means
such as a panic".  Evaluating `1 % 0` refutes this: the Rust `%` operator
is unchecked (`src/eval/mod.rs:1092`), and a remainder with a zero divisor
panics instead of raising a runtime error. -/
theorem C1_mod_by_zero_panics :
    (apply_binary_operation 1 .Mod (1, 1) (.Int 1) (.Int 0)) emptyStore =
      (.panic "attempt to calculate the remainder with a divisor of zero",
       emptyStore) := rfl

/-- C1 (amended): on two in-range `Int` values, `+`, `-` and `*` return
exactly the true mathematical result whenever it fits in i64 and raise a
`Runtime` overflow error at the operator location (leaving the store
unchanged) whenever it does not — so they never wrap and never panic;
`/` returns exactly the truncated quotient (always in range) except that
division by zero and `i64::MIN / -1` raise the runtime overflow error;
`%` with a nonzero divisor returns exactly the truncated remainder
(always in range); but `%` with a zero divisor panics. -/
theorem C1_arith_checked (fuel : Nat) (l c : Nat)
    (a b : Int) (st : Store) (ha : inI64 a) (hb : inI64 b) :
    (inI64 (a + b) →
      (apply_binary_operation fuel .Sum (l, c) (.Int a) (.Int b)) st =
        (.ok (.Int (a + b)), st))
  ∧ (¬ inI64 (a + b) →
      (apply_binary_operation fuel .Sum (l, c) (.Int a) (.Int b)) st =
        (.err (.AtLoc (.Runtime (toString a ++ " " ++ bin_op_symbol .Sum ++
          " " ++ toString b ++ " caused an integer overflow")) l c), st))
  ∧ (inI64 (a - b) →
      (apply_binary_operation fuel .Sub (l, c) (.Int a) (.Int b)) st =
        (.ok (.Int (a - b)), st))
  ∧ (¬ inI64 (a - b) →
      (apply_binary_operation fuel .Sub (l, c) (.Int a) (.Int b)) st =
        (.err (.AtLoc (.Runtime (toString a ++ " " ++ bin_op_symbol .Sub ++
          " " ++ toString b ++ " caused an integer overflow")) l c), st))
  ∧ (inI64 (a * b) →
      (apply_binary_operation fuel .Mul (l, c) (.Int a) (.Int b)) st =
        (.ok (.Int (a * b)), st))
  ∧ (¬ inI64 (a * b) →
      (apply_binary_operation fuel .Mul (l, c) (.Int a) (.Int b)) st =
        (.err (.AtLoc (.Runtime (toString a ++ " " ++ bin_op_symbol .Mul ++
          " " ++ toString b ++ " caused an integer overflow")) l c), st))
  ∧ (b ≠ 0 → ¬ (a = i64Min ∧ b = -1) →
      (apply_binary_operation fuel .Div (l, c) (.Int a) (.Int b)) st =
        (.ok (.Int (a.tdiv b)), st) ∧ inI64 (a.tdiv b))
  ∧ (b = 0 →
      (apply_binary_operation fuel .Div (l, c) (.Int a) (.Int b)) st =
        (.err (.AtLoc (.Runtime (toString a ++ " " ++ bin_op_symbol .Div ++
          " " ++ toString b ++ " caused an integer overflow")) l c), st))
  ∧ (a = i64Min → b = -1 →
      (apply_binary_operation fuel .Div (l, c) (.Int a) (.Int b)) st =
        (.err (.AtLoc (.Runtime (toString a ++ " " ++ bin_op_symbol .Div ++
          " " ++ toString b ++ " caused an integer overflow")) l c), st))
  ∧ (b ≠ 0 →
      (apply_binary_operation fuel .Mod (l, c) (.Int a) (.Int b)) st =
        (.ok (.Int (a.tmod b)), st) ∧ inI64 (a.tmod b))
  ∧ (b = 0 →
      (apply_binary_operation fuel .Mod (l, c) (.Int a) (.Int b)) st =
        (.panic "attempt to calculate the remainder with a divisor of zero",
         st)) := by
  refine ⟨?_, ?_, ?_, ?_, ?_, ?_, ?_, ?_, ?_, ?_, ?_⟩
  · intro hin
    unfold inI64 at hin
    have hsome : checked_add a b = some (a + b) := by
      unfold checked_add; rw [if_pos hin]
    simp [apply_binary_operation, hsome]
  · intro hnin
    unfold inI64 at hnin
    have hnone : checked_add a b = none := by
      unfold checked_add; rw [if_neg hnin]
    simp [apply_binary_operation, hnone]
  · intro hin
    unfold inI64 at hin
    have hsome : checked_sub a b = some (a - b) := by
      unfold checked_sub; rw [if_pos hin]
    simp [apply_binary_operation, hsome]
  · intro hnin
    unfold inI64 at hnin
    have hnone : checked_sub a b = none := by
      unfold checked_sub; rw [if_neg hnin]
    simp [apply_binary_operation, hnone]
  · intro hin
    unfold inI64 at hin
    have hsome : checked_mul a b = some (a * b) := by
      unfold checked_mul; rw [if_pos hin]
    simp [apply_binary_operation, hsome]
  · intro hnin
    unfold inI64 at hnin
    have hnone : checked_mul a b = none := by
      unfold checked_mul; rw [if_neg hnin]
    simp [apply_binary_operation, hnone]
  · intro hz hm
    have hsome : checked_div a b = some (a.tdiv b) := by
      unfold checked_div; rw [if_neg hz, if_neg hm]
    exact ⟨by simp [apply_binary_operation, hsome], inI64_tdiv a b ha hz hm⟩
  · intro hz
    have hnone : checked_div a b = none := by
      unfold checked_div; rw [if_pos hz]
    simp [apply_binary_operation, hnone]
  · intro hmin hneg
    have hnone : checked_div a b = none := by
      unfold checked_div
      by_cases hz : b = 0
      · rw [if_pos hz]
      · rw [if_neg hz, if_pos ⟨hmin, hneg⟩]
    simp [apply_binary_operation, hnone]
  · intro hz
    exact ⟨by simp [apply_binary_operation, hz], inI64_tmod a b hz hb⟩
  · intro hz
    subst hz
    simp [apply_binary_operation]

/-- C1 (witness): the amended theorem applied at `a = 2`, `b = 3`:
`2 + 3` evaluates to exactly `5`, and `2 % 3` to exactly `2`. -/
theorem C1_arith_checked_witness :
    inI64 (2 : Int) ∧ inI64 (3 : Int) ∧ inI64 ((2 : Int) + 3) ∧
    (apply_binary_operation 1 .Sum (1, 1) (.Int 2) (.Int 3))
      emptyStore = (.ok (.Int (2 + 3)), emptyStore) ∧
    (apply_binary_operation 1 .Mod (1, 1) (.Int 2) (.Int 3))
      emptyStore = (.ok (.Int (Int.tmod 2 3)), emptyStore) :=
  ⟨by decide, by decide, by decide,
   (C1_arith_checked 1 1 1 2 3 emptyStore (by decide) (by decide)).1
     (by decide),
   ((C1_arith_checked 1 1 1 2 3 emptyStore (by decide)
     (by decide)).2.2.2.2.2.2.2.2.2.1 (by decide)).1⟩

/-! ## C5: parameter validation and `_` -/

/-- C5 (code bug): parameter validation is claimed to compute all names
bound by all parameter patterns and reject any duplicate with
`DupParamName`, with `_` ignored as a sink.  The loop of `validate_args`
(`src/eval/mod.rs:334`) executes `break` on a `_` parameter, abandoning
validation of every remaining parameter: the parameter list `(x, _, x)`
is accepted, while the same list without the `_`, `(x, x)`, is rejected
with `DupParamName` as the claim describes. -/
theorem C5_underscore_stops_validation :
    validate_args 10 [.mk (.Var "x") (1, 1), .mk (.Var "_") (1, 2),
      .mk (.Var "x") (1, 3)] = .ok () ∧
    validate_args 10 [.mk (.Var "x") (1, 1), .mk (.Var "x") (1, 3)] =
      .err (.AtLoc (.DupParamName "x" 1 1) 1 3) := ⟨rfl, rfl⟩

/-! ## C7: missing key in object destructuring -/

/-- C7 (counterexample): the claim names the error kind
`ObjectDoesNotContainProperty`, but no such kind exists in the evaluator:
`bind_object_prop` (`src/eval/bind.rs:612`) raises the kind `Runtime`
with a message naming the property.  Destructuring the key `a` out of the
object `{b: 1}` yields the `Runtime` kind. -/
theorem C7_missing_key_is_runtime_kind :
    (bind_object_prop 2 emptyContext [] [] (.mk (.Var "x") (1, 1)) 0 "a"
      (1, 2) .Declaration)
      {emptyStore with objects := [[("b", new_int 1)]]} =
    (.err (.AtLoc (.Runtime "object does not contain property a") 1 2),
     {emptyStore with objects := [[("b", new_int 1)]]}) := rfl

/-- C7 (amended): object destructuring of an element whose key is absent
from the right-hand object fails with a `Runtime` error whose message
names the property, raised at the element location, leaving the store
unchanged. -/
theorem C7_missing_key_fails_runtime (fuel : Nat)
    (ctx : EvaluationContext) (scopes : ScopeStack) (names : NameSet)
    (lhs : Expr) (rhsAddr : Nat) (propName : String) (pl pc : Nat)
    (bindType : BindType) (st : Store) (h1 : propName ≠ "_")
    (h2 : btree_get (st.getObject rhsAddr) propName = none) :
    (bind_object_prop (fuel + 1) ctx scopes names lhs rhsAddr propName
      (pl, pc) bindType) st =
    (.err (.AtLoc (.Runtime ("object does not contain property " ++
      propName)) pl pc), st) := by
  simp only [bind_object_prop, if_neg h1]
  rw [evalm_bind_ok (evalm_getstore_apply st)]
  rw [h2]
  rfl

/-- C7 (witness): the amended theorem applied to the object `{b: 1}` and
the key `a`. -/
theorem C7_missing_key_fails_runtime_witness :
    "a" ≠ "_" ∧
    btree_get (Store.getObject
      {emptyStore with objects := [[("b", new_int 1)]]} 0) "a" = none ∧
    (bind_object_prop 5 emptyContext [] [] (.mk (.Var "x") (1, 1)) 0 "a"
      (3, 4) .Declaration)
      {emptyStore with objects := [[("b", new_int 1)]]} =
    (.err (.AtLoc (.Runtime "object does not contain property a") 3 4),
     {emptyStore with objects := [[("b", new_int 1)]]}) :=
  ⟨by decide, rfl,
   C7_missing_key_fails_runtime 4 emptyContext [] [] (.mk (.Var "x") (1, 1))
     0 "a" 3 4 .Declaration _ (by decide) rfl⟩

/-! ## C4: evaluation order in a call expression -/

/-- C4 (counterexample): the claim states that in `f(a1, ..., an)` the
callee `f` is evaluated before any argument.  In `eval_call`
(`src/eval/mod.rs:1466`) the argument list is evaluated first: calling
`f(a)` with both `f` and `a` undefined raises the error of the argument
`a` (wrapped in the argument-evaluation chain links), not the error of
the callee `f`. -/
theorem C4_argument_error_preempts_callee :
    (eval_call 20 emptyContext [] (.mk (.Var "f") (1, 1))
      [.mk (.mk (.Var "a") (1, 2)) false] (3, 3)) emptyStore =
    (.err (.Chain "EvalCallArgsFailed" (.Chain "EvalListItemFailed"
      (.AtLoc (.Undefined "a") 1 2))), emptyStore) := rfl

/-- C4 (amended): in a call expression the arguments are evaluated first,
left to right, and the callee expression is evaluated only after all of
them: an error while evaluating the argument list is returned (in the
`EvalCallArgsFailed` chain) without the callee ever being evaluated, and
when the arguments succeed the callee is evaluated next, its error being
returned in the `EvalCallFuncFailed` chain. -/
theorem C4_args_evaluated_before_callee (fuel : Nat)
    (ctx : EvaluationContext) (scopes : ScopeStack) (f : Expr)
    (args : List ListItem) (l c : Nat) (st st1 : Store) :
    (∀ e, (eval_list_items fuel ctx scopes args) st = (.err e, st1) →
      (eval_call (fuel + 1) ctx scopes f args (l, c)) st =
        (.err (.Chain "EvalCallArgsFailed" e), st1))
  ∧ (∀ vals e2 st2,
      (eval_list_items fuel ctx scopes args) st = (.ok vals, st1) →
      (eval_expr fuel ctx scopes f) st1 = (.err e2, st2) →
      (eval_call (fuel + 1) ctx scopes f args (l, c)) st =
        (.err (.Chain "EvalCallFuncFailed" e2), st2)) := by
  constructor
  · intro e h
    simp only [eval_call]
    exact evalm_bind_err (evalm_context_err "EvalCallArgsFailed" h)
  · intro vals e2 st2 h1 h2
    simp only [eval_call]
    rw [evalm_bind_ok (evalm_context_ok "EvalCallArgsFailed" h1)]
    exact evalm_bind_err (evalm_context_err "EvalCallFuncFailed" h2)

/-- C4 (witness): the amended theorem applied to `f(a)` with `a`
undefined (first part) and to `true(x)` with `x` bound, `true` a literal
failing to evaluate... the second part is witnessed with a callee whose
evaluation fails (`g` undefined) after an empty argument list. -/
theorem C4_args_evaluated_before_callee_witness :
    ((eval_call 6 emptyContext [] (.mk (.Var "f") (1, 1))
        [.mk (.mk (.Var "a") (1, 2)) false] (3, 3)) emptyStore =
      (.err (.Chain "EvalCallArgsFailed" (.Chain "EvalListItemFailed"
        (.AtLoc (.Undefined "a") 1 2))), emptyStore))
  ∧ ((eval_call 6 emptyContext [] (.mk (.Var "g") (1, 1)) [] (3, 3))
        emptyStore =
      (.err (.Chain "EvalCallFuncFailed" (.AtLoc (.Undefined "g") 1 1)),
       emptyStore)) :=
  ⟨(C4_args_evaluated_before_callee 5 emptyContext [] (.mk (.Var "f")
      (1, 1)) [.mk (.mk (.Var "a") (1, 2)) false] 3 3 emptyStore
      emptyStore).1 _ rfl,
   (C4_args_evaluated_before_callee 5 emptyContext [] (.mk (.Var "g")
      (1, 1)) [] 3 3 emptyStore emptyStore).2 [] _ emptyStore rfl rfl⟩

/-! ## C6: assignment through the scope stack -/

/-- C6: `ScopeStack::assign` replaces the innermost binding found by
topmost-first search through the scope stack — the first scope from the
top holding the name has its binding's value replaced in place (location
and mutability kept), the scopes above it not holding the name and every
other scope untouched; it fails with the `Undefined` error kind when the
name is bound in no scope, and with the `Const` error kind when the
innermost binding for the name is const. -/
theorem C6_assign_innermost_const_undefined (st : Store) (name : String)
    (v : SourcedValue) :
    (∀ (pre : List Nat) (addr : Nat) (post : List Nat) (e : ScopeEntry),
      (∀ a ∈ pre, scope_find (st.getScope a) name = none) →
      scope_find (st.getScope addr) name = some e →
      (e.m = .Const →
        ScopeStack.assign (pre ++ addr :: post) st name v =
          .error .Const) ∧
      (e.m = .Var →
        ScopeStack.assign (pre ++ addr :: post) st name v =
          .ok (st.setScope addr
            (scope_insert (st.getScope addr) name {e with v := v}))))
  ∧ (∀ stack : List Nat,
      (∀ a ∈ stack, scope_find (st.getScope a) name = none) →
      ScopeStack.assign stack st name v = .error .Undefined) := by
  constructor
  · intro pre
    induction pre with
    | nil =>
        intro addr post e _ hfound
        constructor
        · intro hc
          simp [ScopeStack.assign, hfound, hc]
        · intro hv
          have : e.m ≠ Mutability.Const := by rw [hv]; decide
          simp [ScopeStack.assign, hfound, this]
    | cons a rest ih =>
        intro addr post e hpre hfound
        have ha : scope_find (st.getScope a) name = none :=
          hpre a (by simp)
        have hrest : ∀ x ∈ rest, scope_find (st.getScope x) name = none :=
          fun x hx => hpre x (by simp [hx])
        have hih := ih addr post e hrest hfound
        constructor
        · intro hm
          have := hih.1 hm
          simpa [ScopeStack.assign, ha] using this
        · intro hm
          have := hih.2 hm
          simpa [ScopeStack.assign, ha] using this
  · intro stack h
    induction stack with
    | nil => simp [ScopeStack.assign]
    | cons a rest ih =>
        have ha : scope_find (st.getScope a) name = none := h a (by simp)
        have hrest : ∀ x ∈ rest, scope_find (st.getScope x) name = none :=
          fun x hx => h x (by simp [hx])
        simpa [ScopeStack.assign, ha] using ih hrest

/-- C6 (witness): a two-scope stack whose top scope does not hold `x` and
whose next scope holds `x` as a var: the assignment replaces that binding;
a const binding and an absent name produce the two error kinds. -/
theorem C6_assign_innermost_const_undefined_witness :
    (ScopeStack.assign [1, 0]
      {emptyStore with scopes :=
        [[("x", ⟨new_int 1, (1, 1), .Var⟩)], [("y", ⟨new_int 2, (2, 2), .Var⟩)]]}
      "x" (new_int 9) =
      .ok ({emptyStore with scopes :=
        [[("x", ⟨new_int 1, (1, 1), .Var⟩)], [("y", ⟨new_int 2, (2, 2), .Var⟩)]]}.setScope 0
          (scope_insert [("x", ⟨new_int 1, (1, 1), .Var⟩)] "x"
            ⟨new_int 9, (1, 1), .Var⟩)))
  ∧ (ScopeStack.assign [0]
      {emptyStore with scopes := [[("x", ⟨new_int 1, (1, 1), .Const⟩)]]}
      "x" (new_int 9) = .error .Const)
  ∧ (ScopeStack.assign [0]
      {emptyStore with scopes := [[("y", ⟨new_int 1, (1, 1), .Var⟩)]]}
      "x" (new_int 9) = .error .Undefined) := by
  refine ⟨?_, ?_, ?_⟩
  · have h := (C6_assign_innermost_const_undefined
      {emptyStore with scopes :=
        [[("x", ⟨new_int 1, (1, 1), .Var⟩)], [("y", ⟨new_int 2, (2, 2), .Var⟩)]]}
      "x" (new_int 9)).1 [1] 0 [] ⟨new_int 1, (1, 1), .Var⟩
      (by intro a ha; simp at ha; subst ha; rfl) rfl
    exact h.2 rfl
  · have h := (C6_assign_innermost_const_undefined
      {emptyStore with scopes := [[("x", ⟨new_int 1, (1, 1), .Const⟩)]]}
      "x" (new_int 9)).1 [] 0 [] ⟨new_int 1, (1, 1), .Const⟩
      (by simp) rfl
    exact h.1 rfl
  · exact (C6_assign_innermost_const_undefined
      {emptyStore with scopes := [[("y", ⟨new_int 1, (1, 1), .Var⟩)]]}
      "x" (new_int 9)).2 [0] (by intro a ha; simp at ha; subst ha; rfl)

/-! ## Evaluating literal expressions: helper lemmas -/

lemma eval_expr_int_literal (fuel : Nat) (ctx : EvaluationContext)
    (scopes : ScopeStack) (n : Int) (l c : Nat) (st : Store) :
    (eval_expr (fuel + 1) ctx scopes (.mk (.Int n) (l, c))) st =
      (.ok (new_int n), st) := by
  simp [eval_expr]

lemma eval_expr_str_literal (fuel : Nat) (ctx : EvaluationContext)
    (scopes : ScopeStack) (s : String) (l c : Nat) (st : Store) :
    (eval_expr (fuel + 1) ctx scopes (.mk (.Str s none) (l, c))) st =
      (.ok (new_str_from_string s), st) := by
  simp [eval_expr]

lemma eval_expr_to_i64_int_literal (fuel : Nat) (ctx : EvaluationContext)
    (scopes : ScopeStack) (descr : String) (n : Int) (l c : Nat)
    (st : Store) :
    (eval_expr_to_i64 (fuel + 2) ctx scopes descr (.mk (.Int n) (l, c)))
      st = (.ok n, st) := by
  simp only [eval_expr_to_i64]
  rw [evalm_bind_ok (evalm_context_ok "EvalExprFailed"
    (eval_expr_int_literal fuel ctx scopes n l c st))]
  rfl

lemma eval_expr_to_index_nat_literal (fuel : Nat)
    (ctx : EvaluationContext) (scopes : ScopeStack) (n : Nat) (l c : Nat)
    (st : Store) :
    (eval_expr_to_index (fuel + 3) ctx scopes
      (.mk (.Int (n : Int)) (l, c))) st = (.ok n, st) := by
  simp only [eval_expr_to_index]
  rw [evalm_bind_ok (evalm_context_ok "EvalIndexToI64Failed"
    (eval_expr_to_i64_int_literal fuel ctx scopes "index" (n : Int) l c
      st))]
  have hneg : ¬((n : Int) < 0) := by omega
  simp [hneg]

lemma evalm_bind_congr {α β : Type} {x : EvalM α} {k1 k2 : α → EvalM β}
    (st : Store) (h : ∀ a st1, k1 a st1 = k2 a st1) :
    (x >>= k1) st = (x >>= k2) st := by
  rw [evalm_bind_apply, evalm_bind_apply]
  rcases hx : x st with ⟨r, st1⟩
  cases r <;> simp [h]

/-! ## C2: range-index assignment -/

/-- C2: in range-index assignment into a list, an omitted start index
behaves exactly as the literal `0` and an omitted end index behaves
exactly as a literal equal to the length of the right-hand side (not the
list length); with both indices given, the constraints are checked in the
order `s ≤ list-length`, then `s < e`, then `e ≤ list-length`, then
`(e − s) = rhs-length`, each failure raising its own error kind at the
target location; when all hold, the elements are written into the slots
`s, s+1, ...`. -/
theorem C2_range_index_defaults_and_order (fuel : Nat)
    (ctx : EvaluationContext) (scopes : ScopeStack) (addr : Nat)
    (rhsItems : List SourcedValue) (l c l1 c1 l2 c2 : Nat) (st : Store) :
    (∀ me : Option Nat,
      (bind_range_index (fuel + 4) ctx scopes addr none
        (me.map (fun n : Nat => Expr.mk (.Int (n : Int)) (l2, c2))) (l, c)
        rhsItems) st =
      (bind_range_index (fuel + 4) ctx scopes addr
        (some (Expr.mk (.Int ((0 : Nat) : Int)) (l1, c1)))
        (me.map (fun n : Nat => Expr.mk (.Int (n : Int)) (l2, c2))) (l, c)
        rhsItems) st)
  ∧ (∀ ms : Option Nat,
      (bind_range_index (fuel + 4) ctx scopes addr
        (ms.map (fun n : Nat => Expr.mk (.Int (n : Int)) (l1, c1))) none (l, c)
        rhsItems) st =
      (bind_range_index (fuel + 4) ctx scopes addr
        (ms.map (fun n : Nat => Expr.mk (.Int (n : Int)) (l1, c1)))
        (some (Expr.mk (.Int (rhsItems.length : Int)) (l2, c2))) (l, c)
        rhsItems) st)
  ∧ (∀ s e : Nat,
      (s > (st.getList addr).length →
        (bind_range_index (fuel + 4) ctx scopes addr
          (some (Expr.mk (.Int (s : Int)) (l1, c1)))
          (some (Expr.mk (.Int (e : Int)) (l2, c2))) (l, c) rhsItems) st =
        (.err (.AtLoc (.RangeStartOutOfListBounds s
          (st.getList addr).length) l c), st))
    ∧ (s ≤ (st.getList addr).length → s ≥ e →
        (bind_range_index (fuel + 4) ctx scopes addr
          (some (Expr.mk (.Int (s : Int)) (l1, c1)))
          (some (Expr.mk (.Int (e : Int)) (l2, c2))) (l, c) rhsItems) st =
        (.err (.AtLoc (.RangeStartNotBeforeEnd s e) l c), st))
    ∧ (s ≤ (st.getList addr).length → s < e →
        e > (st.getList addr).length →
        (bind_range_index (fuel + 4) ctx scopes addr
          (some (Expr.mk (.Int (s : Int)) (l1, c1)))
          (some (Expr.mk (.Int (e : Int)) (l2, c2))) (l, c) rhsItems) st =
        (.err (.AtLoc (.RangeEndOutOfListBounds e
          (st.getList addr).length) l c), st))
    ∧ (s ≤ (st.getList addr).length → s < e →
        e ≤ (st.getList addr).length → e - s ≠ rhsItems.length →
        (bind_range_index (fuel + 4) ctx scopes addr
          (some (Expr.mk (.Int (s : Int)) (l1, c1)))
          (some (Expr.mk (.Int (e : Int)) (l2, c2))) (l, c) rhsItems) st =
        (.err (.AtLoc (.RangeIndexItemMismatch (e - s) rhsItems.length)
          l c), st))
    ∧ (s ≤ (st.getList addr).length → s < e →
        e ≤ (st.getList addr).length → e - s = rhsItems.length →
        (bind_range_index (fuel + 4) ctx scopes addr
          (some (Expr.mk (.Int (s : Int)) (l1, c1)))
          (some (Expr.mk (.Int (e : Int)) (l2, c2))) (l, c) rhsItems) st =
        (.ok (), st.setList addr
          (set_slots (st.getList addr) s rhsItems)))) := by
  have hred : ∀ (s e : Nat),
      (bind_range_index (fuel + 4) ctx scopes addr
        (some (Expr.mk (.Int (s : Int)) (l1, c1)))
        (some (Expr.mk (.Int (e : Int)) (l2, c2))) (l, c) rhsItems) st =
      (if s > (st.getList addr).length then
        (.err (.AtLoc (.RangeStartOutOfListBounds s
          (st.getList addr).length) l c), st)
       else if s ≥ e then
        (.err (.AtLoc (.RangeStartNotBeforeEnd s e) l c), st)
       else if e > (st.getList addr).length then
        (.err (.AtLoc (.RangeEndOutOfListBounds e
          (st.getList addr).length) l c), st)
       else if e - s ≠ rhsItems.length then
        (.err (.AtLoc (.RangeIndexItemMismatch (e - s) rhsItems.length)
          l c), st)
       else (.ok (), st.setList addr
        (set_slots (st.getList addr) s rhsItems))) := by
    intro s e
    simp only [bind_range_index]
    rw [evalm_bind_ok (evalm_context_ok "EvalStartIndexFailed"
      (eval_expr_to_index_nat_literal fuel ctx scopes s l1 c1 st))]
    rw [evalm_bind_ok (evalm_context_ok "EvalEndIndexFailed"
      (eval_expr_to_index_nat_literal fuel ctx scopes e l2 c2 st))]
    rw [evalm_bind_ok (evalm_getstore_apply st)]
    split_ifs <;> simp
  have hredNS : ∀ (e : Nat),
      (bind_range_index (fuel + 4) ctx scopes addr none
        (some (Expr.mk (.Int (e : Int)) (l2, c2))) (l, c) rhsItems) st =
      (if 0 > (st.getList addr).length then
        (.err (.AtLoc (.RangeStartOutOfListBounds 0
          (st.getList addr).length) l c), st)
       else if 0 ≥ e then
        (.err (.AtLoc (.RangeStartNotBeforeEnd 0 e) l c), st)
       else if e > (st.getList addr).length then
        (.err (.AtLoc (.RangeEndOutOfListBounds e
          (st.getList addr).length) l c), st)
       else if e - 0 ≠ rhsItems.length then
        (.err (.AtLoc (.RangeIndexItemMismatch (e - 0) rhsItems.length)
          l c), st)
       else (.ok (), st.setList addr
        (set_slots (st.getList addr) 0 rhsItems))) := by
    intro e
    simp only [bind_range_index, Option.map_some', Option.map_none']
    rw [evalm_bind_ok (evalm_pure_apply 0 st)]
    rw [evalm_bind_ok (evalm_context_ok "EvalEndIndexFailed"
      (eval_expr_to_index_nat_literal fuel ctx scopes e l2 c2 st))]
    rw [evalm_bind_ok (evalm_getstore_apply st)]
    split_ifs <;> simp
  have hredSN : ∀ (s : Nat),
      (bind_range_index (fuel + 4) ctx scopes addr
        (some (Expr.mk (.Int (s : Int)) (l1, c1))) none (l, c) rhsItems)
        st =
      (if s > (st.getList addr).length then
        (.err (.AtLoc (.RangeStartOutOfListBounds s
          (st.getList addr).length) l c), st)
       else if s ≥ rhsItems.length then
        (.err (.AtLoc (.RangeStartNotBeforeEnd s rhsItems.length) l c),
         st)
       else if rhsItems.length > (st.getList addr).length then
        (.err (.AtLoc (.RangeEndOutOfListBounds rhsItems.length
          (st.getList addr).length) l c), st)
       else if rhsItems.length - s ≠ rhsItems.length then
        (.err (.AtLoc (.RangeIndexItemMismatch (rhsItems.length - s)
          rhsItems.length) l c), st)
       else (.ok (), st.setList addr
        (set_slots (st.getList addr) s rhsItems))) := by
    intro s
    simp only [bind_range_index, Option.map_some', Option.map_none']
    rw [evalm_bind_ok (evalm_context_ok "EvalStartIndexFailed"
      (eval_expr_to_index_nat_literal fuel ctx scopes s l1 c1 st))]
    rw [evalm_bind_ok (evalm_pure_apply rhsItems.length st)]
    rw [evalm_bind_ok (evalm_getstore_apply st)]
    split_ifs <;> simp
  have hredNN :
      (bind_range_index (fuel + 4) ctx scopes addr none none (l, c)
        rhsItems) st =
      (if 0 > (st.getList addr).length then
        (.err (.AtLoc (.RangeStartOutOfListBounds 0
          (st.getList addr).length) l c), st)
       else if 0 ≥ rhsItems.length then
        (.err (.AtLoc (.RangeStartNotBeforeEnd 0 rhsItems.length) l c),
         st)
       else if rhsItems.length > (st.getList addr).length then
        (.err (.AtLoc (.RangeEndOutOfListBounds rhsItems.length
          (st.getList addr).length) l c), st)
       else if rhsItems.length - 0 ≠ rhsItems.length then
        (.err (.AtLoc (.RangeIndexItemMismatch (rhsItems.length - 0)
          rhsItems.length) l c), st)
       else (.ok (), st.setList addr
        (set_slots (st.getList addr) 0 rhsItems))) := by
    simp only [bind_range_index, Option.map_none']
    rw [evalm_bind_ok (evalm_pure_apply 0 st)]
    rw [evalm_bind_ok (evalm_pure_apply rhsItems.length st)]
    rw [evalm_bind_ok (evalm_getstore_apply st)]
    split_ifs <;> simp
  refine ⟨?_, ?_, ?_⟩
  · intro me
    cases me with
    | none =>
        simp only [Option.map_none']
        rw [hredNN, hredSN 0]
    | some n =>
        simp only [Option.map_some']
        rw [hredNS n, hred 0 n]
  · intro ms
    cases ms with
    | none =>
        simp only [Option.map_none']
        rw [hredNN, hredNS rhsItems.length]
    | some n =>
        simp only [Option.map_some']
        rw [hredSN n, hred n rhsItems.length]
  · intro s e
    refine ⟨?_, ?_, ?_, ?_, ?_⟩
    · intro h1
      rw [hred, if_pos h1]
    · intro h1 h2
      rw [hred, if_neg (by omega), if_pos h2]
    · intro h1 h2 h3
      rw [hred, if_neg (by omega), if_neg (by omega), if_pos h3]
    · intro h1 h2 h3 h4
      rw [hred, if_neg (by omega), if_neg (by omega), if_neg (by omega),
        if_pos h4]
    · intro h1 h2 h3 h4
      rw [hred, if_neg (by omega), if_neg (by omega), if_neg (by omega),
        if_neg (by omega)]

/-- C2 (witness): on the list `[0,0,0,0]`: a literal start `5` fails the
first constraint with `RangeStartOutOfListBounds`, and `xs[1..3] = "ab"`
(as the two one-byte strings) succeeds and writes the two slots. -/
theorem C2_range_index_defaults_and_order_witness :
    ((bind_range_index 10 emptyContext [] 0
        (some (Expr.mk (.Int ((5 : Nat) : Int)) (7, 7)))
        (some (Expr.mk (.Int ((3 : Nat) : Int)) (8, 8))) (1, 2)
        [new_str [Char.ofNat 97], new_str [Char.ofNat 98]])
        {emptyStore with lists :=
          [[new_int 0, new_int 0, new_int 0, new_int 0]]} =
      (.err (.AtLoc (.RangeStartOutOfListBounds 5 4) 1 2),
       {emptyStore with lists :=
          [[new_int 0, new_int 0, new_int 0, new_int 0]]}))
  ∧ ((bind_range_index 10 emptyContext [] 0
        (some (Expr.mk (.Int ((1 : Nat) : Int)) (7, 7)))
        (some (Expr.mk (.Int ((3 : Nat) : Int)) (8, 8))) (1, 2)
        [new_str [Char.ofNat 97], new_str [Char.ofNat 98]])
        {emptyStore with lists :=
          [[new_int 0, new_int 0, new_int 0, new_int 0]]} =
      (.ok (), Store.setList
        {emptyStore with lists :=
          [[new_int 0, new_int 0, new_int 0, new_int 0]]} 0
        (set_slots (Store.getList
          {emptyStore with lists :=
            [[new_int 0, new_int 0, new_int 0, new_int 0]]} 0) 1
          [new_str [Char.ofNat 97], new_str [Char.ofNat 98]]))) := by
  constructor
  · have h := ((C2_range_index_defaults_and_order 6 emptyContext [] 0
      [new_str [Char.ofNat 97], new_str [Char.ofNat 98]] 1 2 7 7 8 8
      {emptyStore with lists :=
        [[new_int 0, new_int 0, new_int 0, new_int 0]]}).2.2 5 3).1
    exact h (by decide)
  · have h := ((C2_range_index_defaults_and_order 6 emptyContext [] 0
      [new_str [Char.ofNat 97], new_str [Char.ofNat 98]] 1 2 7 7 8 8
      {emptyStore with lists :=
        [[new_int 0, new_int 0, new_int 0, new_int 0]]}).2.2 1 3).2.2.2.2
    exact h (by decide) (by decide) (by decide) (by decide)

/-! ## C3: the catch-as-bool form -/

/-- C3: for every expression `e`, evaluating `e?` yields a fresh
two-element list `[value, true]` when `e` succeeds; when `e` fails, the
error chain is walked to its deepest local error by `root_error`, and if
that root is a `Runtime` error the result is the fresh list
`[null, false]`, otherwise the original error is re-raised (inside the
`EvalCatchAsBoolFailed` wrapper, whose source chain is the original
error). -/
theorem C3_catch_as_bool (fuel : Nat) (ctx : EvaluationContext)
    (scopes : ScopeStack) (e : Expr) (l c : Nat) (st : Store) :
    (∀ v st1, (eval_expr fuel ctx scopes e) st = (.ok v, st1) →
      (eval_expr (fuel + 1) ctx scopes (.mk (.CatchAsBool e) (l, c))) st =
        (.ok ⟨.List st1.lists.length, none⟩,
         {st1 with lists := st1.lists ++ [[v, new_bool true]]}))
  ∧ (∀ err st1, (eval_expr fuel ctx scopes e) st = (.err err, st1) →
      (∃ msg, root_error err = .Runtime msg) →
      (eval_expr (fuel + 1) ctx scopes (.mk (.CatchAsBool e) (l, c))) st =
        (.ok ⟨.List st1.lists.length, none⟩,
         {st1 with lists := st1.lists ++ [[new_null, new_bool false]]}))
  ∧ (∀ err st1, (eval_expr fuel ctx scopes e) st = (.err err, st1) →
      (∀ msg, root_error err ≠ .Runtime msg) →
      (eval_expr (fuel + 1) ctx scopes (.mk (.CatchAsBool e) (l, c))) st =
        (.err (.EvalCatchAsBoolFailed err), st1)) := by
  refine ⟨?_, ?_, ?_⟩
  · intro v st1 h
    simp only [eval_expr]
    rw [h]
    simp [new_list]
  · intro err st1 h hroot
    obtain ⟨msg, hm⟩ := hroot
    simp only [eval_expr]
    rw [h]
    simp only [hm]
    simp [new_list]
  · intro err st1 h hroot
    simp only [eval_expr]
    rw [h]
    cases hr : root_error err
    case Runtime msg => exact absurd hr (hroot msg)
    all_goals simp [hr]

/-- C3 (witness): the theorem applied to a succeeding literal, to an
expression whose root error is `Runtime` (an integer overflow), and to an
expression whose root error is `Undefined`. -/
theorem C3_catch_as_bool_witness :
    ((eval_expr 3 emptyContext [] (.mk (.CatchAsBool (.mk (.Int 7)
        (1, 1))) (2, 2))) emptyStore =
      (.ok ⟨.List emptyStore.lists.length, none⟩,
       {emptyStore with lists :=
         emptyStore.lists ++ [[new_int 7, new_bool true]]}))
  ∧ ((eval_expr 4 emptyContext [] (.mk (.CatchAsBool (.mk (.BinaryOp
        .Sum (3, 3) (.mk (.Int 9223372036854775807) (1, 1))
        (.mk (.Int 1) (1, 2))) (1, 1))) (2, 2))) emptyStore =
      (.ok ⟨.List emptyStore.lists.length, none⟩,
       {emptyStore with lists :=
         emptyStore.lists ++ [[new_null, new_bool false]]}))
  ∧ ((eval_expr 3 emptyContext [] (.mk (.CatchAsBool (.mk (.Var "nope")
        (1, 1))) (2, 2))) emptyStore =
      (.err (.EvalCatchAsBoolFailed (.AtLoc (.Undefined "nope") 1 1)),
       emptyStore)) := by
  refine ⟨?_, ?_, ?_⟩
  · exact (C3_catch_as_bool 2 emptyContext [] (.mk (.Int 7) (1, 1)) 2 2
      emptyStore).1 (new_int 7) emptyStore rfl
  · exact (C3_catch_as_bool 3 emptyContext [] (.mk (.BinaryOp .Sum (3, 3)
      (.mk (.Int 9223372036854775807) (1, 1)) (.mk (.Int 1) (1, 2)))
      (1, 1)) 2 2 emptyStore).2.1 _ emptyStore rfl ⟨_, rfl⟩
  · exact (C3_catch_as_bool 2 emptyContext [] (.mk (.Var "nope") (1, 1))
      2 2 emptyStore).2.2 _ emptyStore rfl
      (fun msg h => Error.noConfusion h)

/-! ## C8: list concatenation -/

/-- C8 (counterexample): the claim quantifies over all lists `a`, `b` and
asserts `(a + b) == [...a, ...b]` (alongside the reference-distinctness
conjuncts).  When a list holds a function value, structural equality `==`
is undefined on the elements (`eq` has no function arm,
`src/eval/mod.rs:1236`): with `a = [fn]` and `b = []`, evaluating
`(a + b) == [...a, ...b]` raises a runtime type error instead of
producing `true`. -/
theorem C8_eq_undefined_on_function_elements :
    (eval_expr 10 emptyContext [0] (.mk (.BinaryOp .Eq (5, 5)
      (.mk (.BinaryOp .Sum (4, 4) (.mk (.Var "a") (1, 1))
        (.mk (.Var "b") (1, 2))) (3, 3))
      (.mk (.List [.mk (.mk (.Var "a") (2, 1)) true,
        .mk (.mk (.Var "b") (2, 2)) true] false) (2, 0))) (6, 6)))
      {emptyStore with
        funcs := [⟨none, [], false, [], []⟩],
        lists := [[⟨.Func 0, none⟩], []],
        scopes := [[("a", ⟨⟨.List 0, none⟩, (0, 0), .Var⟩),
          ("b", ⟨⟨.List 1, none⟩, (0, 0), .Var⟩)]]} =
    (.err (.Chain "ApplyBinOpFailed" (.AtLoc (.Runtime
      "cannot apply == to function and function (at [0])") 5 5)),
     {emptyStore with
        funcs := [⟨none, [], false, [], []⟩],
        lists := [[⟨.Func 0, none⟩], [],
          [⟨.Func 0, none⟩], [⟨.Func 0, none⟩]],
        scopes := [[("a", ⟨⟨.List 0, none⟩, (0, 0), .Var⟩),
          ("b", ⟨⟨.List 1, none⟩, (0, 0), .Var⟩)]]}) := by rfl

lemma eq_value_refl_nonfunc (fuel : Nat) (st : Store) (v : Value)
    (h : value_isFunction v = false) :
    eq_value (fuel + 1) st v v = .ok (.ok true) := by
  cases v <;> simp [eq_value, value_ref_eq] <;> simp [value_isFunction]
    at h

lemma eq_list_items_refl (xs : List SourcedValue) :
    ∀ (fuel i : Nat) (st : Store),
    (∀ x ∈ xs, value_isFunction x.v = false) → xs.length + 1 ≤ fuel →
    eq_list_items fuel st xs xs i = .ok (.ok true) := by
  induction xs with
  | nil =>
      intro fuel i st _ hfuel
      obtain ⟨f, rfl⟩ : ∃ f, fuel = f + 1 := ⟨fuel - 1, by omega⟩
      simp [eq_list_items]
  | cons x rest ih =>
      intro fuel i st hnf hfuel
      obtain ⟨f, rfl⟩ : ∃ f, fuel = f + 1 := ⟨fuel - 1, by omega⟩
      obtain ⟨g, rfl⟩ : ∃ g, f = g + 1 := ⟨f - 1, by simp at hfuel; omega⟩
      simp only [eq_list_items]
      rw [eq_value_refl_nonfunc g _ _ (hnf x (by simp))]
      exact ih (g + 1) (i + 1) st (fun y hy => hnf y (by simp [hy]))
        (by simp at hfuel ⊢; omega)

/-- C8 (amended): for any two list values, `a + b` allocates a fresh list
whose elements are `a`'s followed by `b`'s; the fresh handle is
reference-distinct (`!==`) from both operands; and the structural
equality `(a + b) == [...a, ...b]` holds whenever no top-level element is
a function value — on a function element `==` is undefined and raises a
runtime type error instead (see the counterexample). -/
theorem C8_list_sum_fresh_concat (fuel : Nat) (l c : Nat) (st : Store)
    (ia ib : Nat) (hia : ia < st.lists.length)
    (hib : ib < st.lists.length) :
    ((apply_binary_operation fuel .Sum (l, c) (.List ia) (.List ib)) st =
      (.ok (.List st.lists.length),
       {st with lists := st.lists ++ [st.getList ia ++ st.getList ib]}))
  ∧ (ref_eq (.List st.lists.length) (.List ia) = some false ∧
     ref_eq (.List st.lists.length) (.List ib) = some false)
  ∧ (∀ (st2 : Store) (p q : Nat) (xs : List SourcedValue) (fuel2 : Nat),
      p ≠ q → st2.getList p = xs → st2.getList q = xs →
      (∀ x ∈ xs, value_isFunction x.v = false) →
      xs.length + 1 ≤ fuel2 →
      eq_value (fuel2 + 1) st2 (.List p) (.List q) = .ok (.ok true)) := by
  refine ⟨?_, ⟨?_, ?_⟩, ?_⟩
  · simp [apply_binary_operation, Store.getList, evalm_bind_apply, new_list, EvalM.getStore]
  · have h0 : st.lists.length ≠ ia := by omega
    simp only [ref_eq, value_ref_eq]
    rw [decide_eq_false h0]
  · have h0 : st.lists.length ≠ ib := by omega
    simp only [ref_eq, value_ref_eq]
    rw [decide_eq_false h0]
  · intro st2 p q xs fuel2 hpq hp hq hnf hfuel
    have hrefF : value_ref_eq p q = false := by
      simp [value_ref_eq, hpq]
    have hstep : eq_value (fuel2 + 1) st2 (.List p) (.List q) =
        eq_list_items fuel2 st2 xs xs 0 := by
      simp [eq_value, hrefF, hp, hq]
    rw [hstep]
    exact eq_list_items_refl xs fuel2 0 st2 hnf hfuel

/-- C8 (witness): the amended theorem applied to the store holding
`a = [1]` at address 0 and `b = [2]` at address 1 (concatenation and
reference-distinctness), and to two distinct addresses holding the same
function-free elements (structural equality). -/
theorem C8_list_sum_fresh_concat_witness :
    ((apply_binary_operation 1 .Sum (1, 1) (.List 0) (.List 1))
      {emptyStore with lists := [[new_int 1], [new_int 2]]} =
      (.ok (.List 2),
       {emptyStore with lists :=
         [[new_int 1], [new_int 2], [new_int 1, new_int 2]]}))
  ∧ (ref_eq (.List 2) (.List 0) = some false ∧
     ref_eq (.List 2) (.List 1) = some false)
  ∧ (eq_value 3 {emptyStore with lists := [[new_int 5], [new_int 5]]}
      (.List 0) (.List 1) = .ok (.ok true)) := by
  have h := C8_list_sum_fresh_concat 1 1 1
    {emptyStore with lists := [[new_int 1], [new_int 2]]} 0 1
    (by decide) (by decide)
  refine ⟨?_, ?_, ?_⟩
  · have h1 := h.1
    simpa using h1
  · have h2 := h.2.1
    simpa using h2
  · exact (C8_list_sum_fresh_concat 1 1 1
      {emptyStore with lists := [[new_int 1], [new_int 2]]} 0 1
      (by decide) (by decide)).2.2
      {emptyStore with lists := [[new_int 5], [new_int 5]]} 0 1
      [new_int 5] 2 (by decide) rfl rfl (by decide) (by decide)

/-! ## C9: for-loop iteration over a snapshot of pairs -/

/-- C9: the pairs visited by a `for` loop are determined entirely by the
iterable's contents at loop entry.  First, the `For` statement
materializes the full `(key, value)` pair list from the iterable value
before the first iteration and runs the loop on that list alone — the
loop runner `for_loop` receives only the materialized pairs, so later
mutation of the iterated container cannot change which pairs are bound.
Second, concretely: in
`o := {"a": 1}; n := 0; for [k, v] in o { o["z"] = 1; n = n + 1 }` the
body inserts a new key into `o` while iterating it, yet the loop runs
exactly once (`n = 1`, a single loop-iteration scope is allocated), and
the insertion is visible in the final object. -/
theorem C9_for_iterates_entry_snapshot :
    (∀ (fuel : Nat) (ctx : EvaluationContext) (scopes : ScopeStack)
      (lhs iter : Expr) (stmts : Block) (st st1 : Store)
      (v : SourcedValue) (pairs : List (SourcedValue × SourcedValue)),
      (eval_expr fuel ctx scopes iter) st = (.ok v, st1) →
      value_to_pairs st1 v.v = .ok pairs →
      (eval_stmt (fuel + 1) ctx scopes (.For lhs iter stmts)) st =
        (for_loop fuel ctx scopes lhs pairs stmts) st1)
  ∧ (((eval_stmts 50 emptyContext [] [] for_snapshot_prog)
        emptyStore).1 = .ok Escape.None
    ∧ ScopeStack.get [0]
        ((eval_stmts 50 emptyContext [] [] for_snapshot_prog)
          emptyStore).2 "n" = some (new_int 1)
    ∧ btree_keys (((eval_stmts 50 emptyContext [] [] for_snapshot_prog)
        emptyStore).2.getObject 0) = ["a", "z"]
    ∧ ((eval_stmts 50 emptyContext [] [] for_snapshot_prog)
        emptyStore).2.scopes.length = 2) := by
  constructor
  · intro fuel ctx scopes lhs iter stmts st st1 v pairs h1 h2
    simp only [eval_stmt]
    rw [evalm_bind_ok (evalm_context_ok "EvalForIterFailed" h1)]
    rw [evalm_bind_ok (evalm_getstore_apply st1)]
    rw [h2]
  · exact ⟨rfl, rfl, rfl, rfl⟩

/-- C9 (witness): the snapshot part applied to the loop of the concrete
program: iterating the one-entry object at address `0` materializes
exactly the pair `("a", 1)`. -/
theorem C9_for_iterates_entry_snapshot_witness :
    (eval_stmt 21 emptyContext [0] (.For (.mk (.Var "kv") (3, 3))
      (.mk (.Var "o") (3, 4)) []))
      {emptyStore with
        objects := [[("a", new_int 1)]],
        scopes := [[("o", ⟨⟨.Object 0, none⟩, (0, 0), .Var⟩)]]} =
    (for_loop 20 emptyContext [0] (.mk (.Var "kv") (3, 3))
      [(new_str_from_string "a", new_int 1)] [])
      {emptyStore with
        objects := [[("a", new_int 1)]],
        scopes := [[("o", ⟨⟨.Object 0, none⟩, (0, 0), .Var⟩)]]} :=
  (C9_for_iterates_entry_snapshot.1 20 emptyContext [0]
    (.mk (.Var "kv") (3, 3)) (.mk (.Var "o") (3, 4)) [] _ _
    ⟨.Object 0, none⟩ [(new_str_from_string "a", new_int 1)] rfl rfl)

/-! ## C10: duplicate keys in object literals -/

lemma string_mk_data (s : String) : String.mk s.data = s := by
  rcases s with ⟨d⟩
  rfl

lemma eval_expr_to_str_str_literal (fuel : Nat) (ctx : EvaluationContext)
    (scopes : ScopeStack) (descr : String) (s : String) (l c : Nat)
    (st : Store) :
    (eval_expr_to_str (fuel + 2) ctx scopes descr (.mk (.Str s none)
      (l, c))) st = (.ok s, st) := by
  simp only [eval_expr_to_str]
  rw [evalm_bind_ok (evalm_context_ok "EvalExprFailed"
    (eval_expr_str_literal fuel ctx scopes s l c st))]
  simp [new_str_from_string, string_mk_data]

lemma btree_get_insert_self (m : List (String × SourcedValue))
    (k : String) (v : SourcedValue) :
    btree_get (btree_insert m k v) k = some v := by
  induction m with
  | nil => simp [btree_insert, btree_get]
  | cons h rest ih =>
      obtain ⟨k0, v0⟩ := h
      by_cases he : k = k0
      · simp [btree_insert, he, btree_get]
      · by_cases hl : string_lt k k0
        · simp [btree_insert, he, hl, btree_get]
        · simp [btree_insert, he, hl, btree_get, Ne.symm he, ih]

lemma btree_get_insert_ne (m : List (String × SourcedValue))
    (k k2 : String) (v : SourcedValue) (h : k ≠ k2) :
    btree_get (btree_insert m k v) k2 = btree_get m k2 := by
  induction m with
  | nil => simp [btree_insert, btree_get, h]
  | cons hd rest ih =>
      obtain ⟨k0, v0⟩ := hd
      by_cases he : k = k0
      · subst he
        simp [btree_insert, btree_get, h]
      · by_cases hl : string_lt k k0
        · simp [btree_insert, he, hl, btree_get, h]
        · simp [btree_insert, he, hl, btree_get, ih]

lemma btree_get_fold_insert (kvs : List (String × Int)) :
    ∀ (acc : List (String × SourcedValue)) (k : String),
    btree_get (kvs.foldl (fun m kv => btree_insert m kv.1 (new_int kv.2))
      acc) k =
    (match lookup_last kvs k with
     | some v => some (new_int v)
     | none => btree_get acc k) := by
  induction kvs with
  | nil => intro acc k; simp [lookup_last]
  | cons kv rest ih =>
      intro acc k
      obtain ⟨k0, v0⟩ := kv
      simp only [List.foldl_cons]
      rw [ih]
      cases hl : lookup_last rest k with
      | some v => simp [lookup_last, hl]
      | none =>
          by_cases he : k0 = k
          · subst he
            simp [lookup_last, hl, btree_get_insert_self]
          · simp [lookup_last, hl, he, btree_get_insert_ne _ _ _ _ he]

lemma eval_object_props_literals (kvs : List (String × Int)) :
    ∀ (fuel : Nat) (ctx : EvaluationContext) (scopes : ScopeStack)
    (ol oc : Nat) (acc : List (String × SourcedValue)) (st : Store),
    kvs.length + 2 ≤ fuel →
    (eval_object_props fuel ctx scopes (ol, oc) (literal_props kvs) acc)
      st =
    (.ok (kvs.foldl (fun m kv => btree_insert m kv.1 (new_int kv.2))
      acc), st) := by
  induction kvs with
  | nil =>
      intro fuel ctx scopes ol oc acc st hf
      obtain ⟨f, rfl⟩ : ∃ f, fuel = f + 1 := ⟨fuel - 1, by omega⟩
      simp [literal_props, eval_object_props]
  | cons kv rest ih =>
      intro fuel ctx scopes ol oc acc st hf
      obtain ⟨k, v⟩ := kv
      obtain ⟨f, rfl⟩ : ∃ f, fuel = f + 3 := ⟨fuel - 3, by
        simp at hf; omega⟩
      have hstep : (eval_object_props (f + 3) ctx scopes (ol, oc)
          (literal_props ((k, v) :: rest)) acc) st =
          (((eval_expr_to_str (f + 2) ctx scopes "property name"
              (.mk (.Str k none) (9, 9))).context "EvalPropNameFailed")
            >>= fun name =>
            (((eval_expr (f + 2) ctx scopes (.mk (.Int v)
              (9, 9))).context "EvalPropValueFailed") >>= fun vv =>
            eval_object_props (f + 2) ctx scopes (ol, oc)
              (literal_props rest) (btree_insert acc name vv))) st := rfl
      rw [hstep]
      rw [evalm_bind_ok (evalm_context_ok "EvalPropNameFailed"
        (eval_expr_to_str_str_literal f ctx scopes "property name" k 9 9
          st))]
      rw [evalm_bind_ok (evalm_context_ok "EvalPropValueFailed"
        (eval_expr_int_literal (f + 1) ctx scopes v 9 9 st))]
      rw [ih (f + 2) ctx scopes ol oc (btree_insert acc k (new_int v))
        st (by simp at hf ⊢; omega)]
      simp

/-- C10: an object literal whose keys repeat evaluates without error, and
the resulting object maps each key to the value of its last occurrence in
source order.  First, for any list of string-literal/integer-literal
pairs (with enough fuel) the literal evaluates successfully to a fresh
object whose map is the left fold of `BTreeMap::insert`, and that fold
maps every key to its last occurrence.  Second, the three duplicate-key
forms — shorthand item, explicit pair and spread entry — combine the same
way: with `x = 1` in scope, `{x, "x": 2, ...{"x": 3}}` evaluates to the
object `{x: 3}`. -/
theorem C10_object_literal_last_occurrence_wins (fuel : Nat)
    (ctx : EvaluationContext) (scopes : ScopeStack)
    (kvs : List (String × Int)) (l c : Nat) (st : Store) :
    (kvs.length + 2 ≤ fuel →
      (eval_expr (fuel + 1) ctx scopes (.mk (.Object (literal_props kvs))
        (l, c))) st =
      (.ok ⟨.Object st.objects.length, none⟩,
       {st with objects := st.objects ++ [literal_insert_all kvs]}))
  ∧ (∀ k v, lookup_last kvs k = some v →
      btree_get (literal_insert_all kvs) k = some (new_int v))
  ∧ ((eval_expr 10 emptyContext [0] (.mk (.Object
      [ .Single (.mk (.Var "x") (1, 1)) false false,
        .Pair (.mk (.Str "x" none) (1, 2)) (.mk (.Int 2) (1, 3)),
        .Single (.mk (.Object [.Pair (.mk (.Str "x" none) (2, 1))
          (.mk (.Int 3) (2, 2))]) (1, 4)) true false ]) (0, 0)))
      {emptyStore with scopes := [[("x", ⟨new_int 1, (0, 0), .Var⟩)]]} =
      (.ok ⟨.Object 1, none⟩,
       {emptyStore with
         objects := [[("x", new_int 3)], [("x", new_int 3)]],
         scopes := [[("x", ⟨new_int 1, (0, 0), .Var⟩)]]})) := by
  refine ⟨?_, ?_, ?_⟩
  · intro hf
    simp only [eval_expr]
    rw [evalm_bind_ok (eval_object_props_literals kvs fuel ctx scopes l c
      [] st hf)]
    simp [new_object, literal_insert_all]
  · intro k v h
    simp only [literal_insert_all]
    rw [btree_get_fold_insert kvs [] k, h]
  · rfl

/-- C10 (witness): the theorem applied to the duplicate pair list
`[("x", 1), ("x", 2)]`: evaluation succeeds and the key maps to the
second value. -/
theorem C10_object_literal_last_occurrence_wins_witness :
    ((eval_expr 5 emptyContext [] (.mk (.Object (literal_props
        [("x", 1), ("x", 2)])) (1, 1))) emptyStore =
      (.ok ⟨.Object emptyStore.objects.length, none⟩,
       {emptyStore with objects := emptyStore.objects ++
         [literal_insert_all [("x", 1), ("x", 2)]]}))
  ∧ (btree_get (literal_insert_all [("x", 1), ("x", 2)]) "x" =
      some (new_int 2)) :=
  ⟨(C10_object_literal_last_occurrence_wins 4 emptyContext []
      [("x", 1), ("x", 2)] 1 1 emptyStore).1 (by decide),
   (C10_object_literal_last_occurrence_wins 4 emptyContext []
      [("x", 1), ("x", 2)] 1 1 emptyStore).2.1 "x" 2 rfl⟩

end Ash
